import Mathlib

/-!
Verification of the march-madness data-preparation pipeline.

The definitions below are shallow embeddings of the Python source in
`src/data_preparation/` (pandas tables become lists of structures, floating
point statistics become exact rationals, pandas joins/group-bys become the
corresponding list operations).  Each definition's doc comment names the
source function it embeds.
-/

namespace MarchMadness

/-- The thirteen per-team box-score statistic columns of a detailed game row,
corresponding to the `score_cols` list in `helpers.calculate_rolling_stats`. -/
inductive Stat
  | score | fgm | fga | fgm3 | fga3 | ftm | fta | oreb | dreb | ast | tov | stl | blk
deriving DecidableEq, Repr

/-- One team's box-score line: a rational value for each of the thirteen
statistic columns. -/
structure StatLine where
  score : ℚ
  fgm : ℚ
  fga : ℚ
  fgm3 : ℚ
  fga3 : ℚ
  ftm : ℚ
  fta : ℚ
  oreb : ℚ
  dreb : ℚ
  ast : ℚ
  tov : ℚ
  stl : ℚ
  blk : ℚ
deriving DecidableEq, Repr

/-- Project the value of one named statistic out of a box-score line. -/
def StatLine.get (l : StatLine) : Stat → ℚ
  | .score => l.score
  | .fgm => l.fgm
  | .fga => l.fga
  | .fgm3 => l.fgm3
  | .fga3 => l.fga3
  | .ftm => l.ftm
  | .fta => l.fta
  | .oreb => l.oreb
  | .dreb => l.dreb
  | .ast => l.ast
  | .tov => l.tov
  | .stl => l.stl
  | .blk => l.blk

/-- A row of a combined game-results table: `Season`, `DayNum`, `WTeamID`,
`LTeamID`, the winner/loser statistic columns, and the `NCAA_Tournament` flag
added by `dataloader.combine_season_results`. -/
structure GameRow where
  season : Nat
  dayNum : Nat
  wTeamID : Nat
  lTeamID : Nat
  wStats : StatLine
  lStats : StatLine
  ncaaTournament : Bool
deriving DecidableEq, Repr

/-- A processed ranking row: `Season`, `TeamID`, `RankingDayNum`,
`OrdinalRank`, `SystemName` (the columns used by
`helpers.merge_with_latest_ranking`). -/
structure RankRow where
  season : Nat
  teamID : Nat
  rankingDayNum : Nat
  ordinalRank : ℚ
  systemName : String
deriving DecidableEq, Repr

/-- Deduplicate a list keeping the first occurrence of each element, the order
`pandas.unique` and a scan over dictionary keys produce; `seen` accumulates the
elements already emitted. -/
def uniqueFirstAux {α : Type} [DecidableEq α] (seen : List α) : List α → List α
  | [] => []
  | x :: xs => if x ∈ seen then uniqueFirstAux seen xs else x :: uniqueFirstAux (x :: seen) xs

/-- Deduplicate a list keeping first occurrences. -/
def uniqueFirst {α : Type} [DecidableEq α] (l : List α) : List α := uniqueFirstAux [] l

/-- Comparison used by `sort_values('RankingDayNum')` in
`helpers.merge_with_latest_ranking`: order joined (game, ranking) pairs by the
ranking's day number. -/
def rankDayLe (p q : GameRow × RankRow) : Prop :=
  p.2.rankingDayNum ≤ q.2.rankingDayNum

instance : DecidableRel rankDayLe := fun p q => Nat.decLe _ _

instance : IsTotal (GameRow × RankRow) rankDayLe :=
  ⟨fun p q => Nat.le_total p.2.rankingDayNum q.2.rankingDayNum⟩

instance : IsTrans (GameRow × RankRow) rankDayLe :=
  ⟨fun _ _ _ h1 h2 => Nat.le_trans h1 h2⟩

/-- Lexicographic order on the `(Season, DayNum, team-id)` group keys, the
order in which `groupby(...).last().reset_index()` emits its groups. -/
def keyLe (a b : Nat × Nat × Nat) : Prop :=
  a.1 < b.1 ∨ (a.1 = b.1 ∧ (a.2.1 < b.2.1 ∨ (a.2.1 = b.2.1 ∧ a.2.2 ≤ b.2.2)))

instance : DecidableRel keyLe := fun a b => by unfold keyLe; infer_instance

/-- Left join of `helpers.merge_with_latest_ranking` (lines 17-23): every game
row is paired with each ranking row sharing its season and team id, or with
`none` when no ranking matches (`how='left'`). -/
def mergedPairs (game_data : List GameRow) (rank_data : List RankRow)
    (tid : GameRow → Nat) : List (GameRow × Option RankRow) :=
  game_data.flatMap fun g =>
    let ms := rank_data.filter fun r => r.season == g.season && r.teamID == tid g
    if ms.isEmpty then [(g, none)] else ms.map fun r => (g, some r)

/-- Filter of `helpers.merge_with_latest_ranking` (line 26),
`merged[merged['DayNum'] >= merged['RankingDayNum']]`: keep the pairs whose
ranking is dated at or before the game day.  A pair whose ranking columns are
null compares as false in pandas and is dropped, so the result carries only
actual rankings. -/
def filteredPairs (game_data : List GameRow) (rank_data : List RankRow)
    (tid : GameRow → Nat) : List (GameRow × RankRow) :=
  (mergedPairs game_data rank_data tid).filterMap fun p =>
    match p.2 with
    | none => none
    | some r => if r.rankingDayNum ≤ p.1.dayNum then some (p.1, r) else none

/-- The surviving pairs sorted by `RankingDayNum`
(`merged.sort_values('RankingDayNum')`, line 29). -/
def sortedPairs (game_data : List GameRow) (rank_data : List RankRow)
    (tid : GameRow → Nat) : List (GameRow × RankRow) :=
  List.insertionSort rankDayLe (filteredPairs game_data rank_data tid)

/-- The `(Season, DayNum, team-id)` group-by key of a joined pair (line 30). -/
def pairKey (tid : GameRow → Nat) (p : GameRow × RankRow) : Nat × Nat × Nat :=
  (p.1.season, p.1.dayNum, tid p.1)

/-- Shallow embedding of `helpers.merge_with_latest_ranking`: left-join games
with rankings on `(Season, team-id)`, keep rankings dated at or before the game
day, sort by ranking day and keep the last row of each
`(Season, DayNum, team-id)` group, i.e. the most recent qualifying ranking. -/
def merge_with_latest_ranking (game_data : List GameRow) (rank_data : List RankRow)
    (tid : GameRow → Nat) : List (GameRow × RankRow) :=
  let sorted := sortedPairs game_data rank_data tid
  let keys := List.insertionSort keyLe (uniqueFirst (sorted.map (pairKey tid)))
  keys.filterMap fun k => (sorted.filter fun p => pairKey tid p == k).getLast?

/-- Membership characterization of the filtered join: a (game, ranking) pair
survives the left join and the day filter exactly when the game is an input
row, the ranking is an input ranking for the game's season and team, and the
ranking is dated at or before the game day. -/
lemma mem_filteredPairs {game_data : List GameRow} {rank_data : List RankRow}
    {tid : GameRow → Nat} {p : GameRow × RankRow} :
    p ∈ filteredPairs game_data rank_data tid ↔
      p.1 ∈ game_data ∧ p.2 ∈ rank_data ∧ p.2.season = p.1.season ∧
        p.2.teamID = tid p.1 ∧ p.2.rankingDayNum ≤ p.1.dayNum := by
  constructor
  · intro hp
    obtain ⟨q, hq, hmatch⟩ := List.mem_filterMap.mp hp
    obtain ⟨g, hg, hq'⟩ := List.mem_flatMap.mp hq
    simp only at hq'
    split at hq'
    · simp only [List.mem_singleton] at hq'
      subst hq'
      simp at hmatch
    · obtain ⟨r', hr', he⟩ := List.mem_map.mp hq'
      subst he
      dsimp only at hmatch
      split at hmatch
      next hday =>
        obtain rfl : (g, r') = p := by simpa using hmatch
        obtain ⟨hrmem, hcond⟩ := List.mem_filter.mp hr'
        simp only [Bool.and_eq_true, beq_iff_eq] at hcond
        exact ⟨hg, hrmem, hcond.1, hcond.2, hday⟩
      next => simp at hmatch
  · rintro ⟨h1, h2, h3, h4, h5⟩
    refine List.mem_filterMap.mpr ⟨(p.1, some p.2), ?_, ?_⟩
    · refine List.mem_flatMap.mpr ⟨p.1, h1, ?_⟩
      have hms : p.2 ∈ rank_data.filter
          fun r => r.season == p.1.season && r.teamID == tid p.1 :=
        List.mem_filter.mpr ⟨h2, by simp [h3, h4]⟩
      have hne : (rank_data.filter
          fun r => r.season == p.1.season && r.teamID == tid p.1).isEmpty = false := by
        rcases hl : rank_data.filter
            fun r => r.season == p.1.season && r.teamID == tid p.1 with _ | ⟨a, l⟩
        · rw [hl] at hms; cases hms
        · rw [hl]; rfl
      simp only [hne, Bool.false_eq_true, if_false]
      exact List.mem_map.mpr ⟨p.2, hms, rfl⟩
    · simp [h5]

/-- Last element of a pairwise-related list is related to (or equal to) every
element of the list. -/
lemma pairwise_rel_getLast? {α : Type} {R : α → α → Prop} :
    ∀ {l : List α}, l.Pairwise R → ∀ {b}, l.getLast? = some b → ∀ {a}, a ∈ l → a = b ∨ R a b
  | [], _, _, hb, _, _ => by cases hb
  | [x], _, b, hb, a, ha => by
      obtain rfl : x = b := by simpa using hb
      simp only [List.mem_singleton] at ha
      exact Or.inl ha
  | x :: y :: t, hpw, b, hb, a, ha => by
      have hb' : (y :: t).getLast? = some b := by
        rw [List.getLast?_cons_cons] at hb; exact hb
      rcases List.mem_cons.mp ha with rfl | ha'
      · have hbmem : b ∈ y :: t := List.mem_of_getLast?_eq_some hb'
        exact Or.inr ((List.pairwise_cons.mp hpw).1 b hbmem)
      · exact pairwise_rel_getLast? (List.pairwise_cons.mp hpw).2 hb' ha'

/-- Core facts about every output row of `merge_with_latest_ranking`: the
attached ranking is a real input ranking for the game's season and team, dated
at or before the game day, and maximal in ranking day among all such. -/
lemma merge_with_latest_ranking_spec {game_data : List GameRow}
    {rank_data : List RankRow} {tid : GameRow → Nat} {p : GameRow × RankRow}
    (hp : p ∈ merge_with_latest_ranking game_data rank_data tid) :
    p.1 ∈ game_data ∧ p.2 ∈ rank_data ∧ p.2.season = p.1.season ∧
      p.2.teamID = tid p.1 ∧ p.2.rankingDayNum ≤ p.1.dayNum ∧
      ∀ r ∈ rank_data, r.season = p.1.season → r.teamID = tid p.1 →
        r.rankingDayNum ≤ p.1.dayNum → r.rankingDayNum ≤ p.2.rankingDayNum := by
  unfold merge_with_latest_ranking at hp
  obtain ⟨k, _, hlast⟩ := List.mem_filterMap.mp hp
  have hpgrp : p ∈ (sortedPairs game_data rank_data tid).filter
      fun q => pairKey tid q == k := List.mem_of_getLast?_eq_some hlast
  have hpsorted : p ∈ sortedPairs game_data rank_data tid :=
    (List.mem_filter.mp hpgrp).1
  have hpkey : pairKey tid p == k := (List.mem_filter.mp hpgrp).2
  have hpfilt : p ∈ filteredPairs game_data rank_data tid :=
    (List.perm_insertionSort rankDayLe _).mem_iff.mp hpsorted
  obtain ⟨h1, h2, h3, h4, h5⟩ := mem_filteredPairs.mp hpfilt
  refine ⟨h1, h2, h3, h4, h5, ?_⟩
  intro r hr hrs hrt hrd
  have hmem : (p.1, r) ∈ filteredPairs game_data rank_data tid :=
    mem_filteredPairs.mpr ⟨h1, hr, hrs, hrt, hrd⟩
  have hmem' : (p.1, r) ∈ (sortedPairs game_data rank_data tid).filter
      fun q => pairKey tid q == k := by
    refine List.mem_filter.mpr ⟨?_, ?_⟩
    · exact (List.perm_insertionSort rankDayLe _).mem_iff.mpr hmem
    · exact hpkey
  have hsorted : ((sortedPairs game_data rank_data tid).filter
      fun q => pairKey tid q == k).Pairwise rankDayLe :=
    (List.sorted_insertionSort rankDayLe (filteredPairs game_data rank_data tid)).filter _
  rcases pairwise_rel_getLast? hsorted hlast hmem' with heq | hle
  · exact le_of_eq (congrArg (fun q => q.2.rankingDayNum) heq)
  · exact hle

/-- C1: no-lookahead of the Temporal Ranking Joiner.  Every row output by
`merge_with_latest_ranking` carries a ranking from the input rankings for the
row's season and joined team whose ranking day number is at or before the
game's day number, and which has the maximum ranking day number among all such
qualifying rankings of that team in that season. -/
theorem ranking_joiner_no_lookahead (game_data : List GameRow)
    (rank_data : List RankRow) (tid : GameRow → Nat) (p : GameRow × RankRow)
    (hp : p ∈ merge_with_latest_ranking game_data rank_data tid) :
    p.2.rankingDayNum ≤ p.1.dayNum ∧
      (p.2 ∈ rank_data ∧ p.2.season = p.1.season ∧ p.2.teamID = tid p.1) ∧
      ∀ r ∈ rank_data, r.season = p.1.season → r.teamID = tid p.1 →
        r.rankingDayNum ≤ p.1.dayNum → r.rankingDayNum ≤ p.2.rankingDayNum := by
  obtain ⟨_, h2, h3, h4, h5, h6⟩ := merge_with_latest_ranking_spec hp
  exact ⟨h5, ⟨h2, h3, h4⟩, h6⟩

/-- All-zero box-score line used for concrete instances. -/
def zeroLine : StatLine := ⟨0, 0, 0, 0, 0, 0, 0, 0, 0, 0, 0, 0, 0⟩

/-- Concrete game: season 2024, day 10, team 1 beats team 2. -/
def gExample : GameRow := ⟨2024, 10, 1, 2, zeroLine, zeroLine, false⟩

/-- Concrete ranking of team 1 on day 3. -/
def rEarly : RankRow := ⟨2024, 1, 3, 5, "SEL"⟩

/-- Concrete ranking of team 1 on day 7. -/
def rLate : RankRow := ⟨2024, 1, 7, 4, "SEL"⟩

/-- Concrete ranking of team 1 on day 20, strictly after `gExample`'s day. -/
def rAfter : RankRow := ⟨2024, 1, 20, 6, "SEL"⟩

/-- Witness for C1 at a concrete input: of two qualifying rankings (days 3 and
7) for a game on day 10, the joiner attaches the day-7 ranking, which is at or
before the game day and maximal among qualifying rankings. -/
theorem ranking_joiner_no_lookahead_witness :
    ((gExample, rLate) ∈
        merge_with_latest_ranking [gExample] [rEarly, rLate] fun g => g.wTeamID) ∧
      (rLate.rankingDayNum ≤ gExample.dayNum ∧
        (rLate ∈ [rEarly, rLate] ∧ rLate.season = gExample.season ∧
          rLate.teamID = gExample.wTeamID) ∧
        ∀ r ∈ [rEarly, rLate], r.season = gExample.season →
          r.teamID = gExample.wTeamID → r.rankingDayNum ≤ gExample.dayNum →
            r.rankingDayNum ≤ rLate.rankingDayNum) :=
  ⟨by decide, ranking_joiner_no_lookahead [gExample] [rEarly, rLate]
    (fun g => g.wTeamID) (gExample, rLate) (by decide)⟩

/-- C3 counterexample: a game whose team has only a ranking strictly after the
game day is dropped from the joiner's output entirely, rather than being kept
with a null ranking as the claim states. -/
theorem missing_ranking_totality_counterexample :
    merge_with_latest_ranking [gExample] [rAfter] (fun g => g.wTeamID) = [] ∧
      ¬ ∃ p ∈ merge_with_latest_ranking [gExample] [rAfter] fun g => g.wTeamID,
          p.1 = gExample := by
  exact ⟨by decide, by decide⟩

/-- C3 amended: for a game whose team has no ranking in that season dated at or
before the game day, the joiner's output contains no row for that game's
`(Season, DayNum, team-id)` key at all — the game row is silently dropped (the
join raises no error; the embedding is total). -/
theorem missing_ranking_drops_game (game_data : List GameRow)
    (rank_data : List RankRow) (tid : GameRow → Nat) (g : GameRow)
    (hg : g ∈ game_data)
    (hnone : ∀ r ∈ rank_data, r.season = g.season → r.teamID = tid g →
      g.dayNum < r.rankingDayNum) :
    ∀ p ∈ merge_with_latest_ranking game_data rank_data tid,
      ¬(p.1.season = g.season ∧ tid p.1 = tid g ∧ p.1.dayNum = g.dayNum) := by
  rintro p hp ⟨hs, ht, hd⟩
  obtain ⟨_, h2, h3, h4, h5, _⟩ := merge_with_latest_ranking_spec hp
  have hlt : g.dayNum < p.2.rankingDayNum :=
    hnone p.2 h2 (h3.trans hs) (by rw [h4, ht])
  rw [hd] at h5
  omega

/-- Witness for the amended C3 at a concrete input: the day-10 game of team 1
whose only ranking is dated day 20 has no row in the joiner's output. -/
theorem missing_ranking_drops_game_witness :
    gExample ∈ [gExample] ∧
      (∀ r ∈ [rAfter], r.season = gExample.season → r.teamID = gExample.wTeamID →
        gExample.dayNum < r.rankingDayNum) ∧
      ∀ p ∈ merge_with_latest_ranking [gExample] [rAfter] fun g => g.wTeamID,
        ¬(p.1.season = gExample.season ∧ p.1.wTeamID = gExample.wTeamID ∧
          p.1.dayNum = gExample.dayNum) :=
  ⟨by decide, by decide,
    missing_ranking_drops_game [gExample] [rAfter] (fun g => g.wTeamID) gExample
      (by decide) (by decide)⟩

/-- A per-team per-game row of the reshaped table built at the top of
`helpers.calculate_rolling_stats`: columns `Season`, `DayNum`, `TeamID` and the
thirteen statistic columns of that team in that game. -/
structure StatRow where
  season : Nat
  dayNum : Nat
  teamID : Nat
  stats : StatLine
deriving DecidableEq, Repr

/-- The winners' slice of `calculate_rolling_stats` (lines 86-88): one
`StatRow` per game carrying the winning team's statistics. -/
def winnerRows (games : List GameRow) : List StatRow :=
  games.map fun g => ⟨g.season, g.dayNum, g.wTeamID, g.wStats⟩

/-- The losers' slice of `calculate_rolling_stats` (lines 90-92). -/
def loserRows (games : List GameRow) : List StatRow :=
  games.map fun g => ⟨g.season, g.dayNum, g.lTeamID, g.lStats⟩

/-- Comparison used by `all_games.sort_values(['Season', 'DayNum'])`:
lexicographic season-then-day order. -/
def seasonDayLe (a b : StatRow) : Prop :=
  a.season < b.season ∨ (a.season = b.season ∧ a.dayNum ≤ b.dayNum)

instance : DecidableRel seasonDayLe := fun a b => by unfold seasonDayLe; infer_instance

instance : IsTotal StatRow seasonDayLe := by
  constructor; intro a b; unfold seasonDayLe; omega

instance : IsTrans StatRow seasonDayLe := by
  constructor; intro a b c; unfold seasonDayLe; omega

/-- The combined per-team game log, winners then losers, sorted by
season and day (`calculate_rolling_stats` lines 95-96). -/
def allTeamGames (games : List GameRow) : List StatRow :=
  List.insertionSort seasonDayLe (winnerRows games ++ loserRows games)

/-- Arithmetic mean of a list of rationals. -/
def mean (xs : List ℚ) : ℚ := xs.sum / xs.length

/-- Value of `Series.rolling(window=n, min_periods=1).mean()` at position `k`:
the mean of the window of the last at-most-`n` entries ending at `k`. -/
def rollingMeanAt (n : Nat) (xs : List ℚ) (k : Nat) : ℚ :=
  mean ((xs.take (k + 1)).drop (k + 1 - n))

/-- The series of one statistic over a team's game log. -/
def statSeries (tg : List StatRow) (s : Stat) : List ℚ :=
  tg.map fun r => r.stats.get s

/-- An output row of `calculate_rolling_stats`: identifiers, the rolled mean of
each statistic, and the derived ratio/total columns (lines 105-113). -/
structure RollRow where
  season : Nat
  dayNum : Nat
  teamID : Nat
  roll : StatLine
  rollFGPct : ℚ
  rollFG3Pct : ℚ
  rollFTPct : ℚ
  rollTRB : ℚ
deriving DecidableEq, Repr

/-- One team's block of rolling statistics (`calculate_rolling_stats` lines
101-113): the team's game log annotated, at each position, with the rolling
mean of every statistic column and the derived percentage/total columns
computed from the rolled numerators and denominators. -/
def rollBlock (n : Nat) (tg : List StatRow) : List RollRow :=
  tg.enum.map fun p =>
    let m : Stat → ℚ := fun s => rollingMeanAt n (statSeries tg s) p.1
    { season := p.2.season, dayNum := p.2.dayNum, teamID := p.2.teamID,
      roll := ⟨m .score, m .fgm, m .fga, m .fgm3, m .fga3, m .ftm, m .fta,
        m .oreb, m .dreb, m .ast, m .tov, m .stl, m .blk⟩,
      rollFGPct := m .fgm / m .fga,
      rollFG3Pct := m .fgm3 / m .fga3,
      rollFTPct := m .ftm / m .fta,
      rollTRB := m .oreb + m .dreb }

/-- Shallow embedding of `helpers.calculate_rolling_stats`: reshape the game
log into per-team rows, sort by season and day, and for each distinct team (in
order of first appearance, as `unique()` yields) compute that team's rolling
block over its own games, concatenating the blocks. -/
def calculate_rolling_stats (games : List GameRow) (n : Nat) : List RollRow :=
  let all := allTeamGames games
  (uniqueFirst (all.map fun r => r.teamID)).flatMap fun t =>
    rollBlock n (all.filter fun r => r.teamID == t)

/-- A team's game log: the rows of the sorted combined log belonging to the
team (the `all_games[all_games['TeamID'] == team]` view). -/
def teamGames (games : List GameRow) (t : Nat) : List StatRow :=
  (allTeamGames games).filter fun r => r.teamID == t

lemma mem_uniqueFirstAux {α : Type} [DecidableEq α] {seen l : List α} {a : α} :
    a ∈ uniqueFirstAux seen l ↔ a ∈ l ∧ a ∉ seen := by
  induction l generalizing seen with
  | nil => simp [uniqueFirstAux]
  | cons x xs ih =>
    by_cases hx : x ∈ seen
    · rw [uniqueFirstAux, if_pos hx, ih]
      constructor
      · rintro ⟨h1, h2⟩; exact ⟨List.mem_cons_of_mem _ h1, h2⟩
      · rintro ⟨h1, h2⟩
        rcases List.mem_cons.mp h1 with rfl | h1'
        · exact absurd hx h2
        · exact ⟨h1', h2⟩
    · rw [uniqueFirstAux, if_neg hx]
      constructor
      · intro h
        rcases List.mem_cons.mp h with rfl | h'
        · exact ⟨List.mem_cons_self _ _, hx⟩
        · obtain ⟨h1, h2⟩ := ih.mp h'
          exact ⟨List.mem_cons_of_mem _ h1,
            fun hs => h2 (List.mem_cons_of_mem _ hs)⟩
      · rintro ⟨h1, h2⟩
        rcases List.mem_cons.mp h1 with rfl | h1'
        · exact List.mem_cons_self _ _
        · by_cases hax : a = x
          · subst hax; exact List.mem_cons_self _ _
          · refine List.mem_cons_of_mem _ (ih.mpr ⟨h1', ?_⟩)
            intro hmem
            rcases List.mem_cons.mp hmem with h | h
            · exact hax h
            · exact h2 h

lemma nodup_uniqueFirstAux {α : Type} [DecidableEq α] (seen l : List α) :
    (uniqueFirstAux seen l).Nodup := by
  induction l generalizing seen with
  | nil => simp [uniqueFirstAux]
  | cons x xs ih =>
    by_cases hx : x ∈ seen
    · rw [uniqueFirstAux, if_pos hx]; exact ih _
    · rw [uniqueFirstAux, if_neg hx]
      refine List.nodup_cons.mpr ⟨?_, ih _⟩
      intro hmem
      exact (mem_uniqueFirstAux.mp hmem).2 (List.mem_cons_self _ _)

lemma flatMap_eq_of_unique {α β : Type} {L : List α} {f : α → List β} {t : α}
    (hnd : L.Nodup) (ht : t ∈ L) (hz : ∀ a ∈ L, a ≠ t → f a = []) :
    L.flatMap f = f t := by
  induction L with
  | nil => cases ht
  | cons a L ih =>
    obtain ⟨hna, hndL⟩ := List.nodup_cons.mp hnd
    rcases List.mem_cons.mp ht with rfl | htL
    · have hnil : L.flatMap f = [] := List.flatMap_eq_nil_iff.mpr fun x hx =>
        hz x (List.mem_cons_of_mem _ hx) (fun he => hna (he ▸ hx))
      rw [List.flatMap_cons, hnil, List.append_nil]
    · have hfa : f a = [] := hz a (List.mem_cons_self _ _) (fun he => hna (he ▸ htL))
      rw [List.flatMap_cons, hfa, List.nil_append]
      exact ih hndL htL fun x hx hxt => hz x (List.mem_cons_of_mem _ hx) hxt

lemma teamID_of_mem_rollBlock {n : Nat} {tg : List StatRow} {r : RollRow}
    (hr : r ∈ rollBlock n tg) : ∃ q ∈ tg, r.teamID = q.teamID := by
  obtain ⟨p, hp, he⟩ := List.mem_map.mp hr
  have hsnd : p.2 ∈ tg := by
    have hm := List.mem_map_of_mem Prod.snd hp
    rwa [show tg.enum.map Prod.snd = tg from by
      simpa [List.enum] using List.enumFrom_map_snd 0 tg] at hm
  exact ⟨p.2, hsnd, by rw [← he]⟩

/-- Restricting the output of `calculate_rolling_stats` to one team yields
exactly that team's rolling block over its own game log. -/
lemma filter_calculate_rolling_stats (games : List GameRow) (n : Nat) (t : Nat)
    (ht : t ∈ (allTeamGames games).map fun r => r.teamID) :
    (calculate_rolling_stats games n).filter (fun r => r.teamID == t) =
      rollBlock n (teamGames games t) := by
  unfold calculate_rolling_stats
  rw [List.filter_flatMap]
  unfold uniqueFirst
  have htu : t ∈ uniqueFirstAux [] ((allTeamGames games).map fun r => r.teamID) :=
    mem_uniqueFirstAux.mpr ⟨ht, by simp⟩
  have hres := flatMap_eq_of_unique (f := fun t' =>
      (rollBlock n ((allTeamGames games).filter fun r => r.teamID == t')).filter
        fun r => r.teamID == t)
    (nodup_uniqueFirstAux _ _) htu ?_
  · rw [hres]
    apply List.filter_eq_self.mpr
    intro r hr
    obtain ⟨q, hq, he⟩ := teamID_of_mem_rollBlock hr
    have := (List.mem_filter.mp hq).2
    simp only [beq_iff_eq] at this ⊢
    rw [he, this]
  · intro a _ hat
    apply List.filter_eq_nil_iff.mpr
    intro r hr
    obtain ⟨q, hq, he⟩ := teamID_of_mem_rollBlock hr
    have hq2 := (List.mem_filter.mp hq).2
    simp only [beq_iff_eq] at hq2 ⊢
    rw [he, hq2]
    exact hat

lemma StatLine.get_mk (m : Stat → ℚ) (s : Stat) :
    (StatLine.mk (m .score) (m .fgm) (m .fga) (m .fgm3) (m .fga3) (m .ftm) (m .fta)
      (m .oreb) (m .dreb) (m .ast) (m .tov) (m .stl) (m .blk)).get s = m s := by
  cases s <;> rfl

/-- Entry `k` of a team's rolling block: the identifiers of the team's `k`-th
game together with the rolling mean of each statistic at position `k`. -/
lemma rollBlock_fields (n : Nat) (tg : List StatRow) (k : Nat) (hk : k < tg.length)
    (s : Stat) :
    ∃ r, (rollBlock n tg)[k]? = some r ∧ r.season = (tg.get ⟨k, hk⟩).season ∧
      r.dayNum = (tg.get ⟨k, hk⟩).dayNum ∧ r.teamID = (tg.get ⟨k, hk⟩).teamID ∧
      r.roll.get s = rollingMeanAt n (statSeries tg s) k := by
  have hk' : k < (rollBlock n tg).length := by
    unfold rollBlock; rw [List.length_map, List.enum_length]; exact hk
  refine ⟨(rollBlock n tg).get ⟨k, hk'⟩, by simp, ?_, ?_, ?_, ?_⟩ <;>
    simp only [rollBlock, List.get_eq_getElem, List.getElem_map, List.getElem_enum]
  exact StatLine.get_mk (fun s => rollingMeanAt n (statSeries tg s) k) s

/-- C2: rolling-window correctness.  For every team, window size N at least 1
and statistic, the value `calculate_rolling_stats` attaches to the team's k-th
game (the team's games ordered ascending by season then day number) is the
arithmetic mean of that statistic over the team's games 1..k when k is at most
N, and over the most recent N games (k-N+1)..k otherwise, the current game
included (indices here are 0-based: position k is the (k+1)-st game). -/
theorem rolling_window_mean (games : List GameRow) (n : Nat) (hn : 1 ≤ n)
    (t : Nat) (s : Stat) (k : Nat) (hk : k < (teamGames games t).length) :
    (teamGames games t).Sorted seasonDayLe ∧
    ∃ r, ((calculate_rolling_stats games n).filter fun q => q.teamID == t)[k]? = some r ∧
      r.season = ((teamGames games t).get ⟨k, hk⟩).season ∧
      r.dayNum = ((teamGames games t).get ⟨k, hk⟩).dayNum ∧
      r.roll.get s =
        (if k + 1 ≤ n then mean ((statSeries (teamGames games t) s).take (k + 1))
         else mean (((statSeries (teamGames games t) s).drop (k + 1 - n)).take n)) := by
  constructor
  · exact (List.sorted_insertionSort seasonDayLe _).filter _
  · have hne : t ∈ (allTeamGames games).map fun r => r.teamID := by
      have hnil : teamGames games t ≠ [] := by
        intro hcon
        rw [hcon] at hk
        exact absurd hk (by simp)
      obtain ⟨q, hq⟩ := List.exists_mem_of_ne_nil _ hnil
      have h1 := List.mem_filter.mp hq
      exact List.mem_map.mpr ⟨q, h1.1, by simpa using h1.2⟩
    rw [filter_calculate_rolling_stats games n t hne]
    obtain ⟨r, h1, h2, h3, _, h5⟩ := rollBlock_fields n (teamGames games t) k hk s
    refine ⟨r, h1, h2, h3, ?_⟩
    rw [h5]
    unfold rollingMeanAt
    by_cases hcase : k + 1 ≤ n
    · rw [if_pos hcase]
      have hz : k + 1 - n = 0 := by omega
      rw [hz, List.drop_zero]
    · rw [if_neg hcase]
      rw [List.drop_take]
      have hz : k + 1 - (k + 1 - n) = n := by omega
      rw [hz]

/-- Witness for C2 at a concrete input: a single game of team 1, window 1,
position 0 (the team's first game). -/
theorem rolling_window_mean_witness :
    1 ≤ 1 ∧
    ∃ hk0 : 0 < (teamGames [gExample] 1).length,
      (teamGames [gExample] 1).Sorted seasonDayLe ∧
      ∃ r, ((calculate_rolling_stats [gExample] 1).filter fun q => q.teamID == 1)[0]? = some r ∧
        r.season = ((teamGames [gExample] 1).get ⟨0, hk0⟩).season ∧
        r.dayNum = ((teamGames [gExample] 1).get ⟨0, hk0⟩).dayNum ∧
        r.roll.get .score =
          (if 0 + 1 ≤ 1 then mean ((statSeries (teamGames [gExample] 1) .score).take (0 + 1))
           else mean (((statSeries (teamGames [gExample] 1) .score).drop (0 + 1 - 1)).take 1)) :=
  ⟨by decide, by decide, rolling_window_mean [gExample] 1 (by decide) 1 .score 0 (by decide)⟩

/-- Box-score line whose score column is `x` and whose other columns are 0. -/
def lineScore (x : ℚ) : StatLine := ⟨x, 0, 0, 0, 0, 0, 0, 0, 0, 0, 0, 0, 0⟩

/-- Two-season log: team 1 scores 2 in its season-1 game and 4 in its
season-2 game. -/
def crossA : List GameRow :=
  [⟨1, 1, 1, 2, lineScore 2, zeroLine, false⟩, ⟨2, 1, 1, 2, lineScore 4, zeroLine, false⟩]

/-- Same log with the season-1 score changed to 6; the season-2 rows are
identical to those of `crossA`. -/
def crossB : List GameRow :=
  [⟨1, 1, 1, 2, lineScore 6, zeroLine, false⟩, ⟨2, 1, 1, 2, lineScore 4, zeroLine, false⟩]

/-- C5 counterexample: `crossA` and `crossB` have identical season-2 rows, yet
the rolled score attached to team 1's season-2 game is 3 in one run and 5 in
the other (window 2): the window reaches back into season 1, so the rolling
window is not computed from the games of the game's season only. -/
theorem season_isolation_counterexample :
    (crossA.filter fun g => g.season == 2) = (crossB.filter fun g => g.season == 2) ∧
    ∃ rA rB,
      ((calculate_rolling_stats crossA 2).filter fun q => q.teamID == 1)[1]? = some rA ∧
      ((calculate_rolling_stats crossB 2).filter fun q => q.teamID == 1)[1]? = some rB ∧
      rA.season = 2 ∧ rA.dayNum = 1 ∧ rB.season = 2 ∧ rB.dayNum = 1 ∧
      rA.roll.score = 3 ∧ rB.roll.score = 5 ∧ rA.roll.score ≠ rB.roll.score := by
  refine ⟨by decide, ?_⟩
  have hkA : (1 : Nat) < (teamGames crossA 1).length := by decide
  have hkB : (1 : Nat) < (teamGames crossB 1).length := by decide
  obtain ⟨rA, hA1, hA2, hA3, _, hA5⟩ := rollBlock_fields 2 (teamGames crossA 1) 1 hkA .score
  obtain ⟨rB, hB1, hB2, hB3, _, hB5⟩ := rollBlock_fields 2 (teamGames crossB 1) 1 hkB .score
  rw [← filter_calculate_rolling_stats crossA 2 1 (by decide)] at hA1
  rw [← filter_calculate_rolling_stats crossB 2 1 (by decide)] at hB1
  have hsA : statSeries (teamGames crossA 1) .score = [2, 4] := by decide
  have hsB : statSeries (teamGames crossB 1) .score = [6, 4] := by decide
  have hvA : rA.roll.score = 3 := by
    have hg : rA.roll.get .score = rA.roll.score := rfl
    rw [← hg, hA5, hsA]
    norm_num [rollingMeanAt, mean]
  have hvB : rB.roll.score = 5 := by
    have hg : rB.roll.get .score = rB.roll.score := rfl
    rw [← hg, hB5, hsB]
    norm_num [rollingMeanAt, mean]
  refine ⟨rA, rB, hA1, hB1, ?_, ?_, ?_, ?_, hvA, hvB, ?_⟩
  · rw [hA2]
    exact (by decide : ((teamGames crossA 1).get ⟨1, by decide⟩).season = 2)
  · rw [hA3]
    exact (by decide : ((teamGames crossA 1).get ⟨1, by decide⟩).dayNum = 1)
  · rw [hB2]
    exact (by decide : ((teamGames crossB 1).get ⟨1, by decide⟩).season = 2)
  · rw [hB3]
    exact (by decide : ((teamGames crossB 1).get ⟨1, by decide⟩).dayNum = 1)
  · rw [hvA, hvB]; norm_num

/-- C5 amended: the rolling window attached to a team's k-th game depends only
on the first k+1 entries of the team's full chronological game log across all
seasons: any two inputs whose team logs agree up to position k yield the same
rolled value there, and in particular games of earlier seasons do enter the
window (see the counterexample) while later games never do. -/
theorem rolling_window_trailing_history (games games' : List GameRow) (n t : Nat)
    (s : Stat) (k : Nat)
    (hk : k < (teamGames games t).length) (hk' : k < (teamGames games' t).length)
    (hpre : (teamGames games t).take (k + 1) = (teamGames games' t).take (k + 1)) :
    ∃ r r',
      ((calculate_rolling_stats games n).filter fun q => q.teamID == t)[k]? = some r ∧
      ((calculate_rolling_stats games' n).filter fun q => q.teamID == t)[k]? = some r' ∧
      r.roll.get s = r'.roll.get s := by
  have hne : t ∈ (allTeamGames games).map fun r => r.teamID := by
    have hnil : teamGames games t ≠ [] := by
      intro hcon; rw [hcon] at hk; exact absurd hk (by simp)
    obtain ⟨q, hq⟩ := List.exists_mem_of_ne_nil _ hnil
    have h1 := List.mem_filter.mp hq
    exact List.mem_map.mpr ⟨q, h1.1, by simpa using h1.2⟩
  have hne' : t ∈ (allTeamGames games').map fun r => r.teamID := by
    have hnil : teamGames games' t ≠ [] := by
      intro hcon; rw [hcon] at hk'; exact absurd hk' (by simp)
    obtain ⟨q, hq⟩ := List.exists_mem_of_ne_nil _ hnil
    have h1 := List.mem_filter.mp hq
    exact List.mem_map.mpr ⟨q, h1.1, by simpa using h1.2⟩
  obtain ⟨r, h1, _, _, _, h5⟩ := rollBlock_fields n (teamGames games t) k hk s
  obtain ⟨r', h1', _, _, _, h5'⟩ := rollBlock_fields n (teamGames games' t) k hk' s
  rw [← filter_calculate_rolling_stats games n t hne] at h1
  rw [← filter_calculate_rolling_stats games' n t hne'] at h1'
  refine ⟨r, r', h1, h1', ?_⟩
  rw [h5, h5']
  unfold rollingMeanAt
  have htake : (statSeries (teamGames games t) s).take (k + 1) =
      (statSeries (teamGames games' t) s).take (k + 1) := by
    unfold statSeries
    rw [← List.map_take, ← List.map_take, hpre]
  rw [htake]

/-- Witness for the amended C5: two identical single-game inputs trivially
agree on the first position and get the same rolled value. -/
theorem rolling_window_trailing_history_witness :
    (0 < (teamGames [gExample] 1).length) ∧
    ((teamGames [gExample] 1).take 1 = (teamGames [gExample] 1).take 1) ∧
    ∃ r r',
      ((calculate_rolling_stats [gExample] 3).filter fun q => q.teamID == 1)[0]? = some r ∧
      ((calculate_rolling_stats [gExample] 3).filter fun q => q.teamID == 1)[0]? = some r' ∧
      r.roll.get .ast = r'.roll.get .ast :=
  ⟨by decide, rfl,
    rolling_window_trailing_history [gExample] [gExample] 3 1 .ast 0
      (by decide) (by decide) rfl⟩

/-- A winner/loser-oriented row entering `RandomizeTeamsTransformer.transform`:
the shared columns (season, day) plus the block of winner-prefixed and the
block of loser-prefixed team-specific columns, of payload type `σ` (team id,
statistics, rankings, rolled statistics, seed — the embedding is polymorphic in
the column set carried per side). -/
structure SymInRow (σ : Type) where
  season : Nat
  dayNum : Nat
  w : σ
  l : σ
deriving DecidableEq, Repr

/-- An output row of the symmetrizer: shared columns, the `A_`-prefixed block,
the `B_`-prefixed block, and the `TeamA_wins` label. -/
structure SymOutRow (σ : Type) where
  season : Nat
  dayNum : Nat
  a : σ
  b : σ
  teamAWins : Bool
deriving DecidableEq, Repr

/-- The `TeamA_wins = True` slice of the symmetrizer
(`X_random[X_random['TeamA_wins'] == True]`): rows whose draw is true keep the
winner values under the `A_` labels. -/
def aSlice {σ : Type} (draws : Nat → Bool) (rows : List (SymInRow σ)) :
    List (SymOutRow σ) :=
  (rows.enum.filter fun p => draws p.1 == true).map
    fun p => ⟨p.2.season, p.2.dayNum, p.2.w, p.2.l, true⟩

/-- The `TeamA_wins = False` slice after the `A`/`B` label swap
(`X_random_team_b_wins.rename(columns=rename_dict)`): rows whose draw is false
carry the loser values under the `A_` labels and the winner values under the
`B_` labels. -/
def bSlice {σ : Type} (draws : Nat → Bool) (rows : List (SymInRow σ)) :
    List (SymOutRow σ) :=
  (rows.enum.filter fun p => draws p.1 == false).map
    fun p => ⟨p.2.season, p.2.dayNum, p.2.l, p.2.w, false⟩

/-- Shallow embedding of `RandomizeTeamsTransformer.transform` (lines 104-146):
rename the winner/loser blocks to `A_`/`B_`, draw one boolean per row
(`rng.rand(len(X)) > 0.5`, modelled by `draws` indexed by row position), slice
into the rows whose draw is true and those whose draw is false, swap the `A_`
and `B_` column labels on the false slice, and concatenate the two slices. -/
def randomize_teams {σ : Type} (draws : Nat → Bool) (rows : List (SymInRow σ)) :
    List (SymOutRow σ) :=
  aSlice draws rows ++ bSlice draws rows

/-- Row-level effect of the symmetrizer on one input row given its draw: the
`A` side is the winner exactly when the draw is true, and `TeamA_wins` records
the draw. -/
def symmRow {σ : Type} (d : Bool) (r : SymInRow σ) : SymOutRow σ :=
  if d then ⟨r.season, r.dayNum, r.w, r.l, true⟩
  else ⟨r.season, r.dayNum, r.l, r.w, false⟩

lemma snd_mem_of_mem_enum {α : Type} {l : List α} {p : Nat × α} (hp : p ∈ l.enum) :
    p.2 ∈ l := by
  have hm := List.mem_map_of_mem Prod.snd hp
  rwa [show l.enum.map Prod.snd = l from by
    simpa [List.enum] using List.enumFrom_map_snd 0 l] at hm

/-- C4: Outcome Symmetrizer correctness.  For every input table and every
assignment of the per-row draws, the output has exactly one row per input game
(it is a permutation of the per-row images), each output row's `{A, B}` value
multiset equals the corresponding input row's `{winner, loser}` multiset, and
`TeamA_wins` is true exactly when the `A` side carries the winner's values
(the sides being distinguishable since the two team ids differ). -/
theorem symmetrizer_one_row_per_game {σ : Type} (draws : Nat → Bool)
    (rows : List (SymInRow σ)) (hne : ∀ r ∈ rows, r.w ≠ r.l) :
    (randomize_teams draws rows).length = rows.length ∧
    (randomize_teams draws rows).Perm (rows.enum.map fun p => symmRow (draws p.1) p.2) ∧
    ∀ p ∈ rows.enum,
      ({(symmRow (draws p.1) p.2).a, (symmRow (draws p.1) p.2).b} : Multiset σ) =
          {p.2.w, p.2.l} ∧
      ((symmRow (draws p.1) p.2).teamAWins = true ↔ (symmRow (draws p.1) p.2).a = p.2.w) := by
  have hperm : (randomize_teams draws rows).Perm
      (rows.enum.map fun p => symmRow (draws p.1) p.2) := by
    unfold randomize_teams aSlice bSlice
    have hA : (rows.enum.filter fun p => draws p.1 == true).map
          (fun p => (⟨p.2.season, p.2.dayNum, p.2.w, p.2.l, true⟩ : SymOutRow σ)) =
        (rows.enum.filter fun p => draws p.1 == true).map
          (fun p => symmRow (draws p.1) p.2) := by
      apply List.map_congr_left
      intro p hp
      have hd : draws p.1 = true := by simpa using (List.mem_filter.mp hp).2
      rw [symmRow, if_pos hd]
    have hB : (rows.enum.filter fun p => draws p.1 == false).map
          (fun p => (⟨p.2.season, p.2.dayNum, p.2.l, p.2.w, false⟩ : SymOutRow σ)) =
        (rows.enum.filter fun p => draws p.1 == false).map
          (fun p => symmRow (draws p.1) p.2) := by
      apply List.map_congr_left
      intro p hp
      have hd : draws p.1 = false := by simpa using (List.mem_filter.mp hp).2
      rw [symmRow, if_neg (by rw [hd]; exact Bool.false_ne_true)]
    rw [hA, hB, ← List.map_append]
    apply List.Perm.map
    have hfc : (rows.enum.filter fun p => draws p.1 == false) =
        rows.enum.filter fun p => !(draws p.1 == true) := by
      apply List.filter_congr
      intro p _
      cases hd : draws p.1 <;> rfl
    rw [hfc]
    exact List.filter_append_perm _ _
  refine ⟨?_, hperm, ?_⟩
  · rw [hperm.length_eq, List.length_map, List.enum_length]
  · intro p hp
    have hwl : p.2.w ≠ p.2.l := hne p.2 (snd_mem_of_mem_enum hp)
    simp only [symmRow]
    cases hd : draws p.1
    · rw [if_neg Bool.false_ne_true]
      exact ⟨Multiset.pair_comm _ _, by simp [Ne.symm hwl]⟩
    · rw [if_pos rfl]
      exact ⟨rfl, by simp⟩

/-- Concrete symmetrizer input rows over a bare team-id payload. -/
def sRow1 : SymInRow Nat := ⟨2024, 1, 1, 2⟩

/-- Second concrete symmetrizer input row. -/
def sRow2 : SymInRow Nat := ⟨2024, 2, 3, 4⟩

/-- Witness for C4 at a concrete input: one game, draw false, so the `A` side
carries the loser and `TeamA_wins` is false. -/
theorem symmetrizer_one_row_per_game_witness :
    (∀ r ∈ [sRow1], r.w ≠ r.l) ∧
    ((randomize_teams (fun _ => false) [sRow1]).length = [sRow1].length ∧
      (randomize_teams (fun _ => false) [sRow1]).Perm
        ([sRow1].enum.map fun p => symmRow false p.2) ∧
      ∀ p ∈ [sRow1].enum,
        ({(symmRow false p.2).a, (symmRow false p.2).b} : Multiset Nat) =
            {p.2.w, p.2.l} ∧
        ((symmRow false p.2).teamAWins = true ↔ (symmRow false p.2).a = p.2.w)) :=
  ⟨by decide, symmetrizer_one_row_per_game (fun _ => false) [sRow1] (by decide)⟩

/-- C10: implicit ordering of the symmetrizer output.  The output is the
concatenation of the `TeamA_wins = true` slice with the `TeamA_wins = false`
slice, so every true-labelled row precedes every false-labelled row: whenever
position j carries a true label, every earlier position does too (hence the
input's chronological row order is not preserved in general). -/
theorem symmetrizer_output_order {σ : Type} (draws : Nat → Bool)
    (rows : List (SymInRow σ)) (i j : Nat)
    (hi : i < (randomize_teams draws rows).length)
    (hj : j < (randomize_teams draws rows).length) (hij : i < j)
    (hjt : ((randomize_teams draws rows).get ⟨j, hj⟩).teamAWins = true) :
    ((randomize_teams draws rows).get ⟨i, hi⟩).teamAWins = true := by
  have hAtrue : ∀ x ∈ aSlice draws rows, x.teamAWins = true := by
    intro x hx
    obtain ⟨p, _, rfl⟩ := List.mem_map.mp hx
    rfl
  have hBfalse : ∀ x ∈ bSlice draws rows, x.teamAWins = false := by
    intro x hx
    obtain ⟨p, _, rfl⟩ := List.mem_map.mp hx
    rfl
  have hjq : (randomize_teams draws rows)[j]? =
      some ((randomize_teams draws rows).get ⟨j, hj⟩) := by
    simp [List.getElem?_eq_getElem]
  have hiq : (randomize_teams draws rows)[i]? =
      some ((randomize_teams draws rows).get ⟨i, hi⟩) := by
    simp [List.getElem?_eq_getElem]
  have hjA : j < (aSlice draws rows).length := by
    by_contra hge
    push_neg at hge
    have hq : (randomize_teams draws rows)[j]? =
        (bSlice draws rows)[j - (aSlice draws rows).length]? := by
      rw [show randomize_teams draws rows = aSlice draws rows ++ bSlice draws rows
        from rfl]
      exact List.getElem?_append_right hge
    rw [hjq] at hq
    have hmem : (randomize_teams draws rows).get ⟨j, hj⟩ ∈ bSlice draws rows := by
      rcases hb : (bSlice draws rows)[j - (aSlice draws rows).length]? with _ | x
      · rw [hb] at hq; cases hq
      · rw [hb] at hq
        obtain rfl : x = (randomize_teams draws rows).get ⟨j, hj⟩ := by
          injection hq.symm
        exact List.getElem?_mem hb
    have := hBfalse _ hmem
    rw [this] at hjt
    exact Bool.false_ne_true hjt
  have hiA : i < (aSlice draws rows).length := lt_trans hij hjA
  have hq : (randomize_teams draws rows)[i]? = (aSlice draws rows)[i]? := by
    rw [show randomize_teams draws rows = aSlice draws rows ++ bSlice draws rows
      from rfl]
    exact List.getElem?_append_left hiA
  rw [hiq] at hq
  have hmem : (randomize_teams draws rows).get ⟨i, hi⟩ ∈ aSlice draws rows := by
    rcases ha : (aSlice draws rows)[i]? with _ | x
    · rw [ha] at hq; cases hq
    · rw [ha] at hq
      obtain rfl : x = (randomize_teams draws rows).get ⟨i, hi⟩ := by
        injection hq.symm
      exact List.getElem?_mem ha
  exact hAtrue _ hmem

/-- Witness for C10 at a concrete input: with two rows both drawn true, the
row at position 1 has a true label and so does the row before it. -/
theorem symmetrizer_output_order_witness :
    ∃ h0 : 0 < (randomize_teams (fun _ => true) [sRow1, sRow2]).length,
    ∃ h1 : 1 < (randomize_teams (fun _ => true) [sRow1, sRow2]).length,
      ((randomize_teams (fun _ => true) [sRow1, sRow2]).get ⟨1, h1⟩).teamAWins = true ∧
      ((randomize_teams (fun _ => true) [sRow1, sRow2]).get ⟨0, h0⟩).teamAWins = true :=
  ⟨by decide, by decide, by decide,
    symmetrizer_output_order (fun _ => true) [sRow1, sRow2] 0 1 (by decide) (by decide)
      (by decide) (by decide)⟩

/-- A row of a raw results table as handled by
`dataloader.combine_season_results`: an opaque payload (the game columns,
which the combiner never inspects) plus the `NCAA_Tournament` flag column,
`none` until the combiner sets it. -/
structure CRow (π : Type) where
  payload : π
  flag : Option Bool
deriving DecidableEq, Repr

/-- Check whether a table name starts with a given prefix string
(Python `str.startswith`). -/
def strStartsWith (k pre : String) : Bool := pre.toList.isPrefixOf k.toList

/-- Python `dict` lookup on a name-to-table mapping, modelled as an
association list in insertion order. -/
def dictGet {τ : Type} (files : List (String × τ)) (k : String) : Option τ :=
  (files.find? fun p => p.1 == k).map fun p => p.2

/-- Python `dict` assignment: overwrite in place when the key exists,
otherwise append the new entry at the end. -/
def dictSet {τ : Type} (files : List (String × τ)) (k : String) (v : τ) :
    List (String × τ) :=
  if files.any fun p => p.1 == k then
    files.map fun p => if p.1 == k then (k, v) else p
  else files ++ [(k, v)]

/-- Python `del data_files[k]`. -/
def dictDel {τ : Type} (files : List (String × τ)) (k : String) :
    List (String × τ) :=
  files.filter fun p => !(p.1 == k)

/-- `next((k for k in data_files.keys() if k.startswith(pre)), None)`, paired
with the named table. -/
def findEntry {τ : Type} (pre : String) (files : List (String × τ)) :
    Option (String × τ) :=
  files.find? fun p => strStartsWith p.1 pre

/-- Set the `NCAA_Tournament` column of every row of a table
(`df['NCAA_Tournament'] = b`). -/
def setFlag {π : Type} (b : Bool) (t : List (CRow π)) : List (CRow π) :=
  t.map fun r => { r with flag := some b }

/-- The detailed half of `combine_season_results` (lines 172-180): when both a
`RegularSeasonDetailed*` and an `NCAATourneyDetailed*` table are present, tag
their rows with the tournament flag per origin, store their concatenation
under `CombinedDetailedResults` and delete the two originals; otherwise leave
the mapping unchanged. -/
def detailedBranch {π : Type} (files : List (String × List (CRow π))) :
    List (String × List (CRow π)) :=
  match findEntry "RegularSeasonDetailed" files, findEntry "NCAATourneyDetailed" files with
  | some e1, some e2 =>
      dictDel (dictDel (dictSet files "CombinedDetailedResults"
        (setFlag false e1.2 ++ setFlag true e2.2)) e1.1) e2.1
  | _, _ => files

/-- The compact half of `combine_season_results` (lines 183-191).  The source
computes all four keys from the original mapping before either branch runs and
the detailed branch neither renames nor modifies any compact table, so the
compact entries are looked up in the original mapping `files0` while the
mutation applies to the current mapping `files1`. -/
def compactBranch {π : Type} (files0 files1 : List (String × List (CRow π))) :
    List (String × List (CRow π)) :=
  match findEntry "RegularSeasonCompact" files0, findEntry "NCAATourneyCompact" files0 with
  | some e1, some e2 =>
      dictDel (dictDel (dictSet files1 "CombinedCompactResults"
        (setFlag false e1.2 ++ setFlag true e2.2)) e1.1) e2.1
  | _, _ => files1

/-- Shallow embedding of `dataloader.combine_season_results`: run the detailed
branch, then the compact branch. -/
def combine_season_results {π : Type} (files : List (String × List (CRow π))) :
    List (String × List (CRow π)) :=
  compactBranch files (detailedBranch files)

lemma ne_of_startsWith {k pre : String} (h : strStartsWith k pre = true)
    {k' : String} (h' : strStartsWith k' pre = false) : k ≠ k' := by
  intro he
  rw [he] at h
  rw [h] at h'
  cases h'

lemma not_startsWith_of_incomp {k p1 p2 : String} (h : strStartsWith k p1 = true)
    (h12 : p1.toList.isPrefixOf p2.toList = false)
    (h21 : p2.toList.isPrefixOf p1.toList = false) :
    strStartsWith k p2 = false := by
  by_contra hc
  rw [Bool.not_eq_false] at hc
  have hp1 : p1.toList <+: k.toList := List.isPrefixOf_iff_prefix.mp h
  have hp2 : p2.toList <+: k.toList := List.isPrefixOf_iff_prefix.mp hc
  rcases List.prefix_or_prefix_of_prefix hp1 hp2 with hh | hh
  · rw [← List.isPrefixOf_iff_prefix] at hh
    rw [hh] at h12
    cases h12
  · rw [← List.isPrefixOf_iff_prefix] at hh
    rw [hh] at h21
    cases h21

lemma dictGet_cons_pos {τ : Type} {p : String × τ} {ps : List (String × τ)} {k : String}
    (h : (p.1 == k) = true) : dictGet (p :: ps) k = some p.2 := by
  unfold dictGet
  rw [List.find?_cons, h]
  rfl

lemma dictGet_cons_neg {τ : Type} {p : String × τ} {ps : List (String × τ)} {k : String}
    (h : (p.1 == k) = false) : dictGet (p :: ps) k = dictGet ps k := by
  unfold dictGet
  rw [List.find?_cons, h]

lemma find?_overwrite_self {τ : Type} (k : String) (v : τ) :
    ∀ files : List (String × τ), files.any (fun p => p.1 == k) = true →
      dictGet (files.map fun p => if p.1 == k then (k, v) else p) k = some v
  | [], h => by simp at h
  | p :: ps, h => by
    rw [List.map_cons]
    by_cases hk : (p.1 == k) = true
    · rw [if_pos hk]
      exact dictGet_cons_pos (by simp)
    · rw [if_neg hk]
      have h' : ps.any (fun p => p.1 == k) = true := by
        rcases List.any_eq_true.mp h with ⟨x, hx, hxk⟩
        rcases List.mem_cons.mp hx with rfl | hx'
        · exact absurd hxk hk
        · exact List.any_eq_true.mpr ⟨x, hx', hxk⟩
      rw [dictGet_cons_neg (Bool.eq_false_iff.mpr hk)]
      exact find?_overwrite_self k v ps h'

lemma dictGet_append_single_self {τ : Type} (k : String) (v : τ) :
    ∀ files : List (String × τ), files.any (fun p => p.1 == k) = false →
      dictGet (files ++ [(k, v)]) k = some v
  | [], _ => by
    rw [List.nil_append]
    exact dictGet_cons_pos (by simp)
  | p :: ps, h => by
    rw [List.any_cons] at h
    obtain ⟨h1, h2⟩ := Bool.or_eq_false_iff.mp h
    rw [List.cons_append, dictGet_cons_neg h1]
    exact dictGet_append_single_self k v ps h2

lemma dictGet_dictSet_self {τ : Type} (files : List (String × τ)) (k : String) (v : τ) :
    dictGet (dictSet files k v) k = some v := by
  unfold dictSet
  split
  next h => exact find?_overwrite_self k v files h
  next h => exact dictGet_append_single_self k v files (Bool.eq_false_iff.mpr h)

lemma find?_overwrite_ne {τ : Type} (k k' : String) (v : τ) (hne : k' ≠ k) :
    ∀ files : List (String × τ),
      dictGet (files.map fun p => if p.1 == k then (k, v) else p) k' = dictGet files k'
  | [] => rfl
  | p :: ps => by
    rw [List.map_cons]
    by_cases hk : (p.1 == k) = true
    · have hp1 : p.1 = k := by simpa using hk
      rw [if_pos hk, dictGet_cons_neg (by simp [Ne.symm hne]),
        dictGet_cons_neg (by simp [hp1, Ne.symm hne])]
      exact find?_overwrite_ne k k' v hne ps
    · rw [if_neg hk]
      by_cases hk' : (p.1 == k') = true
      · rw [dictGet_cons_pos hk', dictGet_cons_pos hk']
      · rw [dictGet_cons_neg (Bool.eq_false_iff.mpr hk'),
          dictGet_cons_neg (Bool.eq_false_iff.mpr hk')]
        exact find?_overwrite_ne k k' v hne ps

lemma dictGet_append_single_ne {τ : Type} (k k' : String) (v : τ) (hne : k' ≠ k) :
    ∀ files : List (String × τ), dictGet (files ++ [(k, v)]) k' = dictGet files k'
  | [] => by
    rw [List.nil_append, dictGet_cons_neg (by simp [Ne.symm hne])]
  | p :: ps => by
    rw [List.cons_append]
    by_cases hk' : (p.1 == k') = true
    · rw [dictGet_cons_pos hk', dictGet_cons_pos hk']
    · rw [dictGet_cons_neg (Bool.eq_false_iff.mpr hk'),
        dictGet_cons_neg (Bool.eq_false_iff.mpr hk')]
      exact dictGet_append_single_ne k k' v hne ps

lemma dictGet_dictSet_ne {τ : Type} (files : List (String × τ)) (k k' : String) (v : τ)
    (hne : k' ≠ k) : dictGet (dictSet files k v) k' = dictGet files k' := by
  unfold dictSet
  split
  · exact find?_overwrite_ne k k' v hne files
  · exact dictGet_append_single_ne k k' v hne files

lemma dictGet_dictDel_ne {τ : Type} (k k' : String) (hne : k' ≠ k) :
    ∀ files : List (String × τ), dictGet (dictDel files k) k' = dictGet files k'
  | [] => rfl
  | p :: ps => by
    by_cases hk : (p.1 == k) = true
    · have hp1 : p.1 = k := by simpa using hk
      have h1 : dictDel (p :: ps) k = dictDel ps k := by
        unfold dictDel
        rw [List.filter_cons, if_neg (by simp [hk])]
      rw [h1, dictGet_cons_neg (by simp [hp1, Ne.symm hne])]
      exact dictGet_dictDel_ne k k' hne ps
    · have h1 : dictDel (p :: ps) k = p :: dictDel ps k := by
        unfold dictDel
        rw [List.filter_cons, if_pos (by simp [hk])]
      rw [h1]
      by_cases hk' : (p.1 == k') = true
      · rw [dictGet_cons_pos hk', dictGet_cons_pos hk']
      · rw [dictGet_cons_neg (Bool.eq_false_iff.mpr hk'),
          dictGet_cons_neg (Bool.eq_false_iff.mpr hk')]
        exact dictGet_dictDel_ne k k' hne ps

lemma findEntry_startsWith {τ : Type} {pre : String} {files : List (String × τ)}
    {e : String × τ} (h : findEntry pre files = some e) :
    strStartsWith e.1 pre = true := by
  unfold findEntry at h
  have hp := List.find?_some h
  exact hp

lemma setFlag_length {π : Type} (b : Bool) (t : List (CRow π)) :
    (setFlag b t).length = t.length := by
  unfold setFlag
  rw [List.length_map]

lemma setFlag_map_flag {π : Type} (b : Bool) (t : List (CRow π)) :
    (setFlag b t).map (fun r => r.flag) = List.replicate t.length (some b) := by
  induction t with
  | nil => rfl
  | cons r t ih =>
    rw [show setFlag b (r :: t) = { r with flag := some b } :: setFlag b t from rfl,
      List.map_cons, List.length_cons, List.replicate_succ, ih]

lemma setFlag_map_payload {π : Type} (b : Bool) (t : List (CRow π)) :
    (setFlag b t).map (fun r => r.payload) = t.map (fun r => r.payload) := by
  induction t with
  | nil => rfl
  | cons r t ih =>
    rw [show setFlag b (r :: t) = { r with flag := some b } :: setFlag b t from rfl,
      List.map_cons, List.map_cons, ih]

lemma dictGet_detailedBranch_ne {π : Type} (files : List (String × List (CRow π)))
    (k : String) (h1 : strStartsWith k "RegularSeasonDetailed" = false)
    (h2 : strStartsWith k "NCAATourneyDetailed" = false)
    (h3 : k ≠ "CombinedDetailedResults") :
    dictGet (detailedBranch files) k = dictGet files k := by
  unfold detailedBranch
  rcases hrd : findEntry "RegularSeasonDetailed" files with _ | e1 <;>
    rcases htd : findEntry "NCAATourneyDetailed" files with _ | e2 <;>
    simp only [hrd, htd]
  have hne1 : k ≠ e1.1 := (ne_of_startsWith (findEntry_startsWith hrd) h1).symm
  have hne2 : k ≠ e2.1 := (ne_of_startsWith (findEntry_startsWith htd) h2).symm
  rw [dictGet_dictDel_ne _ _ hne2, dictGet_dictDel_ne _ _ hne1,
    dictGet_dictSet_ne _ _ _ _ h3]

lemma dictGet_compactBranch_ne {π : Type}
    (files0 files1 : List (String × List (CRow π))) (k : String)
    (h1 : strStartsWith k "RegularSeasonCompact" = false)
    (h2 : strStartsWith k "NCAATourneyCompact" = false)
    (h3 : k ≠ "CombinedCompactResults") :
    dictGet (compactBranch files0 files1) k = dictGet files1 k := by
  unfold compactBranch
  rcases hrc : findEntry "RegularSeasonCompact" files0 with _ | e1 <;>
    rcases htc : findEntry "NCAATourneyCompact" files0 with _ | e2 <;>
    simp only [hrc, htc]
  have hne1 : k ≠ e1.1 := (ne_of_startsWith (findEntry_startsWith hrc) h1).symm
  have hne2 : k ≠ e2.1 := (ne_of_startsWith (findEntry_startsWith htc) h2).symm
  rw [dictGet_dictDel_ne _ _ hne2, dictGet_dictDel_ne _ _ hne1,
    dictGet_dictSet_ne _ _ _ _ h3]

lemma dictGet_detailedBranch_present {π : Type} (files : List (String × List (CRow π)))
    (e1 e2 : String × List (CRow π))
    (h1 : findEntry "RegularSeasonDetailed" files = some e1)
    (h2 : findEntry "NCAATourneyDetailed" files = some e2) :
    dictGet (detailedBranch files) "CombinedDetailedResults" =
      some (setFlag false e1.2 ++ setFlag true e2.2) := by
  unfold detailedBranch
  simp only [h1, h2]
  have hne1 : ("CombinedDetailedResults" : String) ≠ e1.1 :=
    (ne_of_startsWith (findEntry_startsWith h1) (by decide)).symm
  have hne2 : ("CombinedDetailedResults" : String) ≠ e2.1 :=
    (ne_of_startsWith (findEntry_startsWith h2) (by decide)).symm
  rw [dictGet_dictDel_ne _ _ hne2, dictGet_dictDel_ne _ _ hne1, dictGet_dictSet_self]

lemma dictGet_compactBranch_present {π : Type}
    (files0 files1 : List (String × List (CRow π)))
    (e1 e2 : String × List (CRow π))
    (h1 : findEntry "RegularSeasonCompact" files0 = some e1)
    (h2 : findEntry "NCAATourneyCompact" files0 = some e2) :
    dictGet (compactBranch files0 files1) "CombinedCompactResults" =
      some (setFlag false e1.2 ++ setFlag true e2.2) := by
  unfold compactBranch
  simp only [h1, h2]
  have hne1 : ("CombinedCompactResults" : String) ≠ e1.1 :=
    (ne_of_startsWith (findEntry_startsWith h1) (by decide)).symm
  have hne2 : ("CombinedCompactResults" : String) ≠ e2.1 :=
    (ne_of_startsWith (findEntry_startsWith h2) (by decide)).symm
  rw [dictGet_dictDel_ne _ _ hne2, dictGet_dictDel_ne _ _ hne1, dictGet_dictSet_self]

lemma detailedBranch_eq_of_missing {π : Type} (files : List (String × List (CRow π)))
    (h : findEntry "RegularSeasonDetailed" files = none ∨
      findEntry "NCAATourneyDetailed" files = none) :
    detailedBranch files = files := by
  unfold detailedBranch
  rcases hrd : findEntry "RegularSeasonDetailed" files with _ | e1 <;>
    rcases htd : findEntry "NCAATourneyDetailed" files with _ | e2 <;>
    simp only [hrd, htd]
  rcases h with h | h
  · rw [hrd] at h; cases h
  · rw [htd] at h; cases h

lemma compactBranch_eq_of_missing {π : Type}
    (files0 files1 : List (String × List (CRow π)))
    (h : findEntry "RegularSeasonCompact" files0 = none ∨
      findEntry "NCAATourneyCompact" files0 = none) :
    compactBranch files0 files1 = files1 := by
  unfold compactBranch
  rcases hrc : findEntry "RegularSeasonCompact" files0 with _ | e1 <;>
    rcases htc : findEntry "NCAATourneyCompact" files0 with _ | e2 <;>
    simp only [hrc, htc]
  rcases h with h | h
  · rw [hrc] at h; cases h
  · rw [htc] at h; cases h

/-- C9: Result Combiner contract.  For every input mapping: when both the
regular-season and the tournament table of a shape are present, the combiner
stores under the combined name a table that is the flagged regular-season rows
followed by the flagged tournament rows, whose row count is the sum of the two
inputs' and whose tournament flag is false on the regular-season rows and true
on the tournament rows with payloads preserved; when either half of a shape is
missing, no combined table of that shape is produced (provided the input had
none) and every table whose name carries one of that shape's two source
prefixes is left in the mapping unchanged. -/
theorem combine_season_results_spec {π : Type}
    (files : List (String × List (CRow π))) :
    (∀ e1 e2, findEntry "RegularSeasonDetailed" files = some e1 →
      findEntry "NCAATourneyDetailed" files = some e2 →
      ∃ t, dictGet (combine_season_results files) "CombinedDetailedResults" = some t ∧
        t = setFlag false e1.2 ++ setFlag true e2.2 ∧
        t.length = e1.2.length + e2.2.length ∧
        t.map (fun r => r.flag) =
          List.replicate e1.2.length (some false) ++
            List.replicate e2.2.length (some true) ∧
        t.map (fun r => r.payload) =
          e1.2.map (fun r => r.payload) ++ e2.2.map (fun r => r.payload)) ∧
    ((findEntry "RegularSeasonDetailed" files = none ∨
        findEntry "NCAATourneyDetailed" files = none) →
      dictGet files "CombinedDetailedResults" = none →
      dictGet (combine_season_results files) "CombinedDetailedResults" = none ∧
      ∀ k, (strStartsWith k "RegularSeasonDetailed" = true ∨
          strStartsWith k "NCAATourneyDetailed" = true) →
        dictGet (combine_season_results files) k = dictGet files k) ∧
    (∀ e1 e2, findEntry "RegularSeasonCompact" files = some e1 →
      findEntry "NCAATourneyCompact" files = some e2 →
      ∃ t, dictGet (combine_season_results files) "CombinedCompactResults" = some t ∧
        t = setFlag false e1.2 ++ setFlag true e2.2 ∧
        t.length = e1.2.length + e2.2.length ∧
        t.map (fun r => r.flag) =
          List.replicate e1.2.length (some false) ++
            List.replicate e2.2.length (some true) ∧
        t.map (fun r => r.payload) =
          e1.2.map (fun r => r.payload) ++ e2.2.map (fun r => r.payload)) ∧
    ((findEntry "RegularSeasonCompact" files = none ∨
        findEntry "NCAATourneyCompact" files = none) →
      dictGet files "CombinedCompactResults" = none →
      dictGet (combine_season_results files) "CombinedCompactResults" = none ∧
      ∀ k, (strStartsWith k "RegularSeasonCompact" = true ∨
          strStartsWith k "NCAATourneyCompact" = true) →
        dictGet (combine_season_results files) k = dictGet files k) := by
  refine ⟨?_, ?_, ?_, ?_⟩
  · intro e1 e2 h1 h2
    refine ⟨setFlag false e1.2 ++ setFlag true e2.2, ?_, rfl, ?_, ?_, ?_⟩
    · rw [show combine_season_results files =
          compactBranch files (detailedBranch files) from rfl,
        dictGet_compactBranch_ne _ _ _ (by decide) (by decide) (by decide)]
      exact dictGet_detailedBranch_present files e1 e2 h1 h2
    · rw [List.length_append, setFlag_length, setFlag_length]
    · rw [List.map_append, setFlag_map_flag, setFlag_map_flag]
    · rw [List.map_append, setFlag_map_payload, setFlag_map_payload]
  · intro hmiss hnone
    have hfb : detailedBranch files = files := detailedBranch_eq_of_missing files hmiss
    constructor
    · rw [show combine_season_results files =
          compactBranch files (detailedBranch files) from rfl,
        dictGet_compactBranch_ne _ _ _ (by decide) (by decide) (by decide), hfb]
      exact hnone
    · intro k hk
      rcases hk with hk | hk
      · rw [show combine_season_results files =
            compactBranch files (detailedBranch files) from rfl,
          dictGet_compactBranch_ne _ _ _
            (not_startsWith_of_incomp hk (by decide) (by decide))
            (not_startsWith_of_incomp hk (by decide) (by decide))
            (ne_of_startsWith hk (by decide)), hfb]
      · rw [show combine_season_results files =
            compactBranch files (detailedBranch files) from rfl,
          dictGet_compactBranch_ne _ _ _
            (not_startsWith_of_incomp hk (by decide) (by decide))
            (not_startsWith_of_incomp hk (by decide) (by decide))
            (ne_of_startsWith hk (by decide)), hfb]
  · intro e1 e2 h1 h2
    refine ⟨setFlag false e1.2 ++ setFlag true e2.2, ?_, rfl, ?_, ?_, ?_⟩
    · exact dictGet_compactBranch_present files (detailedBranch files) e1 e2 h1 h2
    · rw [List.length_append, setFlag_length, setFlag_length]
    · rw [List.map_append, setFlag_map_flag, setFlag_map_flag]
    · rw [List.map_append, setFlag_map_payload, setFlag_map_payload]
  · intro hmiss hnone
    have hcb : compactBranch files (detailedBranch files) = detailedBranch files :=
      compactBranch_eq_of_missing files (detailedBranch files) hmiss
    constructor
    · rw [show combine_season_results files =
          compactBranch files (detailedBranch files) from rfl, hcb,
        dictGet_detailedBranch_ne _ _ (by decide) (by decide) (by decide)]
      exact hnone
    · intro k hk
      rcases hk with hk | hk
      · rw [show combine_season_results files =
            compactBranch files (detailedBranch files) from rfl, hcb,
          dictGet_detailedBranch_ne _ _
            (not_startsWith_of_incomp hk (by decide) (by decide))
            (not_startsWith_of_incomp hk (by decide) (by decide))
            (ne_of_startsWith hk (by decide))]
      · rw [show combine_season_results files =
            compactBranch files (detailedBranch files) from rfl, hcb,
          dictGet_detailedBranch_ne _ _
            (not_startsWith_of_incomp hk (by decide) (by decide))
            (not_startsWith_of_incomp hk (by decide) (by decide))
            (ne_of_startsWith hk (by decide))]

/-- Concrete regular-season detailed table (payloads 10 and 11, unlabeled). -/
def tblReg : List (CRow Nat) := [⟨10, none⟩, ⟨11, none⟩]

/-- Concrete tournament detailed table (payload 20, unlabeled). -/
def tblTour : List (CRow Nat) := [⟨20, none⟩]

/-- Concrete raw mapping with both detailed tables and no compact tables. -/
def filesEx : List (String × List (CRow Nat)) :=
  [("RegularSeasonDetailedResults", tblReg), ("NCAATourneyDetailedResults", tblTour)]

/-- Witness for C9 at a concrete input: with both detailed tables present the
combiner produces a combined detailed table of three rows with flags false,
false, true and the payloads preserved. -/
theorem combine_season_results_spec_witness :
    findEntry "RegularSeasonDetailed" filesEx =
        some ("RegularSeasonDetailedResults", tblReg) ∧
    findEntry "NCAATourneyDetailed" filesEx =
        some ("NCAATourneyDetailedResults", tblTour) ∧
    ∃ t, dictGet (combine_season_results filesEx) "CombinedDetailedResults" = some t ∧
      t = setFlag false tblReg ++ setFlag true tblTour ∧
      t.length = tblReg.length + tblTour.length ∧
      t.map (fun r => r.flag) =
        List.replicate tblReg.length (some false) ++
          List.replicate tblTour.length (some true) ∧
      t.map (fun r => r.payload) =
        tblReg.map (fun r => r.payload) ++ tblTour.map (fun r => r.payload) :=
  ⟨by decide, by decide,
    (combine_season_results_spec filesEx).1 ("RegularSeasonDetailedResults", tblReg)
      ("NCAATourneyDetailedResults", tblTour) (by decide) (by decide)⟩

/-- A tournament seed record (`NCAATourneySeeds`): season, team id and the
seed string, held as its character list. -/
structure SeedRec where
  season : Nat
  teamID : Nat
  seed : List Char
deriving DecidableEq, Repr

/-- String form of a possibly missing seed: `astype(str)` renders a pandas
missing value as the string "nan". -/
def strOfOptSeed : Option (List Char) → List Char
  | some s => s
  | none => ['n', 'a', 'n']

/-- A tournament game row of `TournamentSlotTransformer.transform` after the
two seed merges and the region/seed split (lines 177-193): the game columns
plus the one-character conference codes and the remaining seed portions. -/
structure MRow where
  game : GameRow
  wConference : List Char
  wSeedPortion : List Char
  lConference : List Char
  lSeedPortion : List Char
deriving DecidableEq, Repr

/-- An output row of `TournamentSlotTransformer.transform`: the game columns
plus seed portions, round and conference, all null on regular-season rows
(line 219 sets them to NaN). -/
structure SlotRow where
  game : GameRow
  wSeedPortion : Option (List Char)
  lSeedPortion : Option (List Char)
  round : Option Nat
  conference : Option (List Char)
deriving DecidableEq, Repr

/-- The two seed left-merges of lines 177-185: each tournament game picks up
every seed record matching `(Season, WTeamID)` and every one matching
`(Season, LTeamID)`, or a missing value when none matches. -/
def attachSeeds (seeds : List SeedRec) (games : List GameRow) :
    List (GameRow × Option (List Char) × Option (List Char)) :=
  games.flatMap fun g =>
    let ws := seeds.filter fun s => s.season == g.season && s.teamID == g.wTeamID
    let wopts : List (Option (List Char)) :=
      if ws.isEmpty then [none] else ws.map fun s => some s.seed
    let ls := seeds.filter fun s => s.season == g.season && s.teamID == g.lTeamID
    let lopts : List (Option (List Char)) :=
      if ls.isEmpty then [none] else ls.map fun s => some s.seed
    wopts.flatMap fun w => lopts.map fun l => (g, w, l)

/-- The region/seed split of lines 188-193: the conference code is the first
character of the seed string and the seed portion is the rest. -/
def splitSeedRow (p : GameRow × Option (List Char) × Option (List Char)) : MRow :=
  { game := p.1,
    wConference := (strOfOptSeed p.2.1).take 1,
    wSeedPortion := (strOfOptSeed p.2.1).drop 1,
    lConference := (strOfOptSeed p.2.2).take 1,
    lSeedPortion := (strOfOptSeed p.2.2).drop 1 }

/-- `str.contains('a|b')` (line 195): the string contains the character `a`
or the character `b`. -/
def containsAB (s : List Char) : Bool := s.any fun c => c == 'a' || c == 'b'

/-- First Four classification (line 195): both seed portions contain a
play-in letter. -/
def isFirstFour (m : MRow) : Bool :=
  containsAB m.wSeedPortion && containsAB m.lSeedPortion

/-- Order used by `main_tourney.sort_values(by=['WTeamID', 'DayNum'])`
(line 201). -/
def teamDayLe (a b : MRow) : Prop :=
  a.game.wTeamID < b.game.wTeamID ∨
    (a.game.wTeamID = b.game.wTeamID ∧ a.game.dayNum ≤ b.game.dayNum)

instance : DecidableRel teamDayLe := fun a b => by unfold teamDayLe; infer_instance

instance : IsTotal MRow teamDayLe := by
  constructor; intro a b; unfold teamDayLe; omega

instance : IsTrans MRow teamDayLe := by
  constructor; intro a b c; unfold teamDayLe; omega

/-- Order used by the final `games_df.sort_values(by='DayNum')` over the
round-annotated tournament rows (line 207). -/
def dayLe (a b : MRow × Nat) : Prop := a.1.game.dayNum ≤ b.1.game.dayNum

instance : DecidableRel dayLe := fun a b => Nat.decLe _ _

instance : IsTotal (MRow × Nat) dayLe :=
  ⟨fun a b => Nat.le_total a.1.game.dayNum b.1.game.dayNum⟩

instance : IsTrans (MRow × Nat) dayLe := ⟨fun _ _ _ h1 h2 => Nat.le_trans h1 h2⟩

/-- Round assignment for the main draw (lines 201-202): sort the non-play-in
rows by `(WTeamID, DayNum)` and give each row `cumcount() + 1`, i.e. one plus
the number of earlier rows with the same winning team. -/
def mainRoundRows (merged : List MRow) : List (MRow × Nat) :=
  let mainSorted := List.insertionSort teamDayLe (merged.filter fun m => !(isFirstFour m))
  mainSorted.enum.map fun p =>
    (p.2, ((mainSorted.take p.1).filter
      fun m2 => m2.game.wTeamID == p.2.game.wTeamID).length + 1)

/-- The `'Final Four'` conference label of line 213. -/
def finalFour : List Char := ['F', 'i', 'n', 'a', 'l', ' ', 'F', 'o', 'u', 'r']

/-- Build an output row from a round-annotated tournament row (lines 210-216):
the conference is the shared code when the two codes agree and "Final Four"
otherwise. -/
def slotRowOf (p : MRow × Nat) : SlotRow :=
  { game := p.1.game, wSeedPortion := some p.1.wSeedPortion,
    lSeedPortion := some p.1.lSeedPortion, round := some p.2,
    conference := some (if p.1.wConference = p.1.lConference
      then p.1.wConference else finalFour) }

/-- Shallow embedding of `TournamentSlotTransformer.transform`: restrict to
tournament-flagged rows, merge and split the seeds, classify First Four games
(round 0), assign main-draw rounds by per-winning-team cumulative count, sort
the tournament rows by day number, compute the conference label, and prepend
the regular-season rows with null bracket columns. -/
def tournament_slot_transform (seeds : List SeedRec) (games : List GameRow) :
    List SlotRow :=
  let tgames := games.filter fun g => g.ncaaTournament == true
  let merged := (attachSeeds seeds tgames).map splitSeedRow
  let ffRows : List (MRow × Nat) :=
    (merged.filter fun m => isFirstFour m).map fun m => (m, 0)
  let allT := List.insertionSort dayLe (ffRows ++ mainRoundRows merged)
  let tRows := allT.map slotRowOf
  let regular := (games.filter fun g => g.ncaaTournament == false).map fun g =>
    { game := g, wSeedPortion := none, lSeedPortion := none, round := none,
      conference := none }
  regular ++ tRows

/-- Two regular-season rows in reverse day order. -/
def unsortedGames : List GameRow :=
  [⟨2024, 5, 1, 2, zeroLine, zeroLine, false⟩, ⟨2024, 3, 3, 4, zeroLine, zeroLine, false⟩]

/-- C8 counterexample: the resolver's output is not sorted by day number — the
regular-season rows are reattached in their original order in front of the
sorted tournament rows, so an input whose regular-season rows arrive in
reverse day order yields an unsorted output (day column [5, 3]). -/
theorem slot_resolver_not_sorted_counterexample :
    ((tournament_slot_transform [] unsortedGames).map fun r => r.game.dayNum) = [5, 3] ∧
    ¬ List.Sorted (fun a b : Nat => a ≤ b)
      ((tournament_slot_transform [] unsortedGames).map fun r => r.game.dayNum) := by
  constructor
  · decide
  · intro hs
    rw [show ((tournament_slot_transform [] unsortedGames).map
      fun r => r.game.dayNum) = [5, 3] from by decide] at hs
    exact absurd (List.rel_of_sorted_cons hs 3 (by simp)) (by omega)

lemma game_of_mem_attachSeeds {seeds : List SeedRec} {games : List GameRow}
    {q : GameRow × Option (List Char) × Option (List Char)}
    (hq : q ∈ attachSeeds seeds games) : q.1 ∈ games := by
  obtain ⟨g, hg, hq'⟩ := List.mem_flatMap.mp hq
  simp only at hq'
  obtain ⟨w, _, hq''⟩ := List.mem_flatMap.mp hq'
  obtain ⟨l, _, rfl⟩ := List.mem_map.mp hq''
  exact hg

lemma game_of_mem_merged {seeds : List SeedRec} {games : List GameRow} {m : MRow}
    (hm : m ∈ (attachSeeds seeds games).map splitSeedRow) : m.game ∈ games := by
  obtain ⟨q, hq, rfl⟩ := List.mem_map.mp hm
  exact game_of_mem_attachSeeds hq

/-- C8 amended: the resolver's output is the regular-season rows in their
original input order with null bracket columns, followed by the tournament
rows re-sorted by day number — only the tournament suffix is sorted, the
whole table is not. -/
theorem slot_resolver_output_shape (seeds : List SeedRec) (games : List GameRow) :
    ∃ ts : List SlotRow,
      tournament_slot_transform seeds games =
        ((games.filter fun g => g.ncaaTournament == false).map fun g =>
          ⟨g, none, none, none, none⟩) ++ ts ∧
      (∀ r ∈ ts, r.game.ncaaTournament = true) ∧
      List.Sorted (fun a b : SlotRow => a.game.dayNum ≤ b.game.dayNum) ts := by
  refine ⟨(List.insertionSort dayLe
      (((((attachSeeds seeds (games.filter fun g => g.ncaaTournament == true)).map
        splitSeedRow).filter fun m => isFirstFour m).map fun m => (m, 0)) ++
      mainRoundRows ((attachSeeds seeds
        (games.filter fun g => g.ncaaTournament == true)).map splitSeedRow))).map
      slotRowOf, rfl, ?_, ?_⟩
  · intro r hr
    obtain ⟨p, hp, rfl⟩ := List.mem_map.mp hr
    have hp' := (List.perm_insertionSort dayLe _).mem_iff.mp hp
    have hmem : p.1 ∈ (attachSeeds seeds
        (games.filter fun g => g.ncaaTournament == true)).map splitSeedRow := by
      rcases List.mem_append.mp hp' with hff | hmain
      · obtain ⟨m, hm, he⟩ := List.mem_map.mp hff
        obtain rfl : m = p.1 := congrArg Prod.fst he
        exact (List.mem_filter.mp hm).1
      · unfold mainRoundRows at hmain
        obtain ⟨q, hq, he⟩ := List.mem_map.mp hmain
        have : p.1 = q.2 := (congrArg Prod.fst he).symm
        rw [this]
        have hq2 := snd_mem_of_mem_enum hq
        have := (List.perm_insertionSort teamDayLe _).mem_iff.mp hq2
        exact (List.mem_filter.mp this).1
    have hg := game_of_mem_merged hmem
    have := (List.mem_filter.mp hg).2
    simpa [slotRowOf] using this
  · have hs := List.sorted_insertionSort dayLe
      ((((((attachSeeds seeds (games.filter fun g => g.ncaaTournament == true)).map
        splitSeedRow).filter fun m => isFirstFour m).map fun m => (m, 0)) ++
      mainRoundRows ((attachSeeds seeds
        (games.filter fun g => g.ncaaTournament == true)).map splitSeedRow)))
    exact hs.map slotRowOf fun a b h => h

/-- A seed portion carries the play-in mark when its last character is the
suffix letter a or b (the claim's reading of the seed encoding). -/
def hasPlayinSuffix (s : List Char) : Prop :=
  s ≠ [] ∧ (s.getLast? = some 'a' ∨ s.getLast? = some 'b')

instance (s : List Char) : Decidable (hasPlayinSuffix s) := by
  unfold hasPlayinSuffix; infer_instance

/-- Well-formed seed portion per the data model: a run of digits optionally
followed by the play-in letter a or b. -/
def WfPortion (s : List Char) : Prop :=
  (∀ c ∈ s, c.isDigit) ∨
    ∃ ds c, s = ds ++ [c] ∧ (∀ d ∈ ds, d.isDigit) ∧ (c = 'a' ∨ c = 'b')

/-- Well-formed seed string per the data model: a one-character region code
followed by a well-formed portion. -/
def WfSeed (s : List Char) : Prop :=
  ∃ r rest, s = r :: rest ∧ WfPortion rest

/-- Seed lookup for one team in one season, used to state the claim-side
classification and count. -/
def seedFor (seeds : List SeedRec) (season team : Nat) : Option (List Char) :=
  (seeds.find? fun s => s.season == season && s.teamID == team).map fun s => s.seed

/-- Claim-side play-in classification of a game straight from the seed
table: both teams' seed portions contain a play-in letter. -/
def gameIsPlayin (seeds : List SeedRec) (g : GameRow) : Bool :=
  containsAB ((strOfOptSeed (seedFor seeds g.season g.wTeamID)).drop 1) &&
    containsAB ((strOfOptSeed (seedFor seeds g.season g.lTeamID)).drop 1)

/-- Claim-side running count: the number of non-play-in tournament games won
by this game's winning team with day number at most this game's day number. -/
def mainWinCount (seeds : List SeedRec) (games : List GameRow) (g : GameRow) : Nat :=
  (games.filter fun g2 => g2.ncaaTournament == true && !(gameIsPlayin seeds g2) &&
    g2.wTeamID == g.wTeamID && decide (g2.dayNum ≤ g.dayNum)).length

/-- On a well-formed seed portion, containing a play-in letter is the same as
carrying the play-in suffix. -/
lemma containsAB_iff_suffix {s : List Char} (h : WfPortion s) :
    containsAB s = true ↔ hasPlayinSuffix s := by
  rcases h with hd | ⟨ds, c, rfl, hds, hc⟩
  · constructor
    · intro hcon
      obtain ⟨c, hcmem, hab⟩ := List.any_eq_true.mp hcon
      have hdig := hd c hcmem
      rcases (by simpa using hab : c = 'a' ∨ c = 'b') with rfl | rfl <;> simp at hdig
    · rintro ⟨hne, hlast | hlast⟩ <;>
      · have hmem := List.mem_of_getLast?_eq_some hlast
        have hdig := hd _ hmem
        simp at hdig
  · constructor
    · intro _
      refine ⟨by simp, ?_⟩
      rw [List.getLast?_concat]
      rcases hc with rfl | rfl
      · exact Or.inl rfl
      · exact Or.inr rfl
    · intro _
      refine List.any_eq_true.mpr ⟨c, by simp, ?_⟩
      rcases hc with rfl | rfl <;> simp

lemma filter_eq_singleton_of_length_one {α : Type} {p : α → Bool} :
    ∀ {l : List α}, (l.filter p).length = 1 →
      ∃ a, l.filter p = [a] ∧ l.find? p = some a := by
  intro l
  induction l with
  | nil => intro h; simp at h
  | cons x xs ih =>
    intro h
    rw [List.filter_cons] at h
    by_cases hx : p x = true
    · rw [if_pos hx, List.length_cons] at h
      have hnil : xs.filter p = [] := List.length_eq_zero.mp (by omega)
      refine ⟨x, ?_, ?_⟩
      · rw [List.filter_cons, if_pos hx, hnil]
      · rw [List.find?_cons, hx]
    · rw [if_neg hx] at h
      obtain ⟨a, h1, h2⟩ := ih h
      refine ⟨a, ?_, ?_⟩
      · rw [List.filter_cons, if_neg hx]
        exact h1
      · rw [List.find?_cons, Bool.eq_false_iff.mpr hx]
        exact h2

/-- Under one seed record per (season, team), the double left-merge attaches
exactly the looked-up seed of each side to each game. -/
lemma attachSeeds_eq_map (seeds : List SeedRec) :
    ∀ games : List GameRow,
      (∀ g ∈ games,
        (seeds.filter fun s => s.season == g.season && s.teamID == g.wTeamID).length = 1 ∧
        (seeds.filter fun s => s.season == g.season && s.teamID == g.lTeamID).length = 1) →
      attachSeeds seeds games = games.map fun g =>
        (g, seedFor seeds g.season g.wTeamID, seedFor seeds g.season g.lTeamID)
  | [], _ => rfl
  | g :: gs, h => by
    obtain ⟨hw, hl⟩ := h g (List.mem_cons_self _ _)
    obtain ⟨sw, hw1, hw2⟩ := filter_eq_singleton_of_length_one hw
    obtain ⟨sl, hl1, hl2⟩ := filter_eq_singleton_of_length_one hl
    have htail := attachSeeds_eq_map seeds gs fun g' hg' =>
      h g' (List.mem_cons_of_mem _ hg')
    have hwseed : seedFor seeds g.season g.wTeamID = some sw.seed := by
      unfold seedFor
      rw [hw2]
      rfl
    have hlseed : seedFor seeds g.season g.lTeamID = some sl.seed := by
      unfold seedFor
      rw [hl2]
      rfl
    show (let ws := seeds.filter fun s => s.season == g.season && s.teamID == g.wTeamID
      let wopts : List (Option (List Char)) :=
        if ws.isEmpty then [none] else ws.map fun s => some s.seed
      let ls := seeds.filter fun s => s.season == g.season && s.teamID == g.lTeamID
      let lopts : List (Option (List Char)) :=
        if ls.isEmpty then [none] else ls.map fun s => some s.seed
      wopts.flatMap fun w => lopts.map fun l => (g, w, l)) ++ attachSeeds seeds gs = _
    simp only [hw1, hl1, htail, List.isEmpty_cons, List.map_cons, List.map_nil,
      Bool.false_eq_true, if_false, List.flatMap_cons, List.flatMap_nil,
      List.append_nil, hwseed, hlseed]
    rfl

lemma countP_le_one_of_pairwise {α : Type} {p : α → Bool} :
    ∀ {l : List α}, l.Pairwise (fun a b => ¬(p a = true ∧ p b = true)) →
      l.countP p ≤ 1
  | [], _ => by simp
  | x :: xs, h => by
    obtain ⟨hx, hxs⟩ := List.pairwise_cons.mp h
    rw [List.countP_cons]
    by_cases hpx : p x = true
    · have hz : xs.countP p = 0 :=
        List.countP_eq_zero.mpr fun a ha hpa => hx a ha ⟨hpx, hpa⟩
      rw [hz, if_pos hpx]
    · rw [if_neg hpx]
      have := countP_le_one_of_pairwise hxs
      omega

lemma countP_day_split {α : Type} (p : α → Bool) (day : α → Nat) (D : Nat) :
    ∀ l : List α,
      l.countP (fun a => p a && decide (day a ≤ D)) =
        l.countP (fun a => p a && decide (day a < D)) +
          l.countP (fun a => p a && decide (day a = D))
  | [] => rfl
  | x :: xs => by
    rw [List.countP_cons, List.countP_cons, List.countP_cons,
      countP_day_split p day D xs]
    by_cases hpx : p x = true
    · rcases Nat.lt_trichotomy (day x) D with h | h | h
      · have h1 : (p x && decide (day x ≤ D)) = true := by simp [hpx]; omega
        have h2 : (p x && decide (day x < D)) = true := by simp [hpx, h]
        have h3 : (p x && decide (day x = D)) = false := by simp [hpx]; omega
        rw [h1, h2, h3]
        simp
        try omega
      · have h1 : (p x && decide (day x ≤ D)) = true := by simp [hpx]; omega
        have h2 : (p x && decide (day x < D)) = false := by simp [hpx]; omega
        have h3 : (p x && decide (day x = D)) = true := by simp [hpx, h]
        rw [h1, h2, h3]
        simp
        try omega
      · have h1 : (p x && decide (day x ≤ D)) = false := by simp [hpx]; omega
        have h2 : (p x && decide (day x < D)) = false := by simp [hpx]; omega
        have h3 : (p x && decide (day x = D)) = false := by simp [hpx]; omega
        rw [h1, h2, h3]
        simp
        try omega
    · have hpx' : p x = false := Bool.eq_false_iff.mpr hpx
      simp [hpx']
      try omega

/-- In a list sorted by (team, day) with no two rows of the same team on the
same day, the rows before position i with the same team as row i are exactly
the rows anywhere in the list with that team and an earlier day. -/
lemma take_filter_count_of_sorted (l : List MRow)
    (hs : l.Pairwise teamDayLe)
    (hd : l.Pairwise fun a b =>
      a.game.wTeamID = b.game.wTeamID → a.game.dayNum ≠ b.game.dayNum)
    (i : Nat) (hi : i < l.length) :
    ((l.take i).filter
        fun m2 => m2.game.wTeamID == (l.get ⟨i, hi⟩).game.wTeamID).length =
      l.countP fun m2 => m2.game.wTeamID == (l.get ⟨i, hi⟩).game.wTeamID &&
        decide (m2.game.dayNum < (l.get ⟨i, hi⟩).game.dayNum) := by
  have hs' : (l.take i ++ l.drop i).Pairwise teamDayLe := by
    rw [List.take_append_drop]; exact hs
  have hd' : (l.take i ++ l.drop i).Pairwise fun a b =>
      a.game.wTeamID = b.game.wTeamID → a.game.dayNum ≠ b.game.dayNum := by
    rw [List.take_append_drop]; exact hd
  obtain ⟨_, hsDrop, hsCross⟩ := List.pairwise_append.mp hs'
  obtain ⟨_, hdDrop, hdCross⟩ := List.pairwise_append.mp hd'
  have hdropcons : l.drop i = l.get ⟨i, hi⟩ :: l.drop (i + 1) :=
    List.drop_eq_getElem_cons hi
  have hcl : (l.take i ++ l.drop i).countP
      (fun m2 => m2.game.wTeamID == (l.get ⟨i, hi⟩).game.wTeamID &&
        decide (m2.game.dayNum < (l.get ⟨i, hi⟩).game.dayNum)) =
      (l.take i).countP (fun m2 => m2.game.wTeamID == (l.get ⟨i, hi⟩).game.wTeamID &&
        decide (m2.game.dayNum < (l.get ⟨i, hi⟩).game.dayNum)) +
      (l.drop i).countP (fun m2 => m2.game.wTeamID == (l.get ⟨i, hi⟩).game.wTeamID &&
        decide (m2.game.dayNum < (l.get ⟨i, hi⟩).game.dayNum)) :=
    List.countP_append _ _ _
  rw [List.take_append_drop] at hcl
  have hdropzero : (l.drop i).countP
      (fun m2 => m2.game.wTeamID == (l.get ⟨i, hi⟩).game.wTeamID &&
        decide (m2.game.dayNum < (l.get ⟨i, hi⟩).game.dayNum)) = 0 := by
    apply List.countP_eq_zero.mpr
    intro a ha hpa
    simp only [Bool.and_eq_true, beq_iff_eq, decide_eq_true_eq] at hpa
    rw [hdropcons] at ha
    rcases List.mem_cons.mp ha with rfl | ha'
    · omega
    · have h1 : teamDayLe (l.get ⟨i, hi⟩) a := by
        have := List.pairwise_cons.mp (hdropcons ▸ hsDrop)
        exact this.1 a ha'
      have h2 : (l.get ⟨i, hi⟩).game.wTeamID = a.game.wTeamID →
          (l.get ⟨i, hi⟩).game.dayNum ≠ a.game.dayNum := by
        have := List.pairwise_cons.mp (hdropcons ▸ hdDrop)
        exact this.1 a ha'
      unfold teamDayLe at h1
      obtain ⟨hteam, hday⟩ := hpa
      have := h2 hteam.symm
      omega
  have htake : (l.take i).countP
      (fun m2 => m2.game.wTeamID == (l.get ⟨i, hi⟩).game.wTeamID &&
        decide (m2.game.dayNum < (l.get ⟨i, hi⟩).game.dayNum)) =
      (l.take i).countP
        (fun m2 => m2.game.wTeamID == (l.get ⟨i, hi⟩).game.wTeamID) := by
    apply List.countP_congr
    intro a ha
    have hx : l.get ⟨i, hi⟩ ∈ l.drop i := by
      rw [hdropcons]; exact List.mem_cons_self _ _
    have h1 : teamDayLe a (l.get ⟨i, hi⟩) := hsCross a ha _ hx
    have h2 : a.game.wTeamID = (l.get ⟨i, hi⟩).game.wTeamID →
        a.game.dayNum ≠ (l.get ⟨i, hi⟩).game.dayNum := hdCross a ha _ hx
    unfold teamDayLe at h1
    constructor
    · intro hb
      simp only [Bool.and_eq_true] at hb
      exact hb.1
    · intro hb
      simp only [Bool.and_eq_true, beq_iff_eq, decide_eq_true_eq] at hb ⊢
      refine ⟨hb, ?_⟩
      have := h2 hb
      omega
  rw [hcl, hdropzero, htake, List.countP_eq_length_filter]
  omega

/-- The merged-and-split row of one game under unique seeds. -/
def mrowOf (seeds : List SeedRec) (g : GameRow) : MRow :=
  splitSeedRow (g, seedFor seeds g.season g.wTeamID, seedFor seeds g.season g.lTeamID)

lemma seedFor_portion_wf (seeds : List SeedRec) (hwf : ∀ s ∈ seeds, WfSeed s.seed)
    (season team : Nat)
    (hlen : (seeds.filter fun s => s.season == season && s.teamID == team).length = 1) :
    WfPortion ((strOfOptSeed (seedFor seeds season team)).drop 1) := by
  obtain ⟨sw, h1, h2⟩ := filter_eq_singleton_of_length_one hlen
  have hswmem : sw ∈ seeds := by
    have hmem : sw ∈ seeds.filter fun s => s.season == season && s.teamID == team := by
      rw [h1]
      exact List.mem_singleton_self _
    exact (List.mem_filter.mp hmem).1
  obtain ⟨r, rest, heq, hwfrest⟩ := hwf sw hswmem
  have hsf : seedFor seeds season team = some sw.seed := by
    unfold seedFor
    rw [h2]
    rfl
  rw [hsf]
  show WfPortion (sw.seed.drop 1)
  rw [heq]
  exact hwfrest

lemma merged_eq_map_mrowOf (seeds : List SeedRec) (tgames : List GameRow)
    (hseed : ∀ g ∈ tgames,
      (seeds.filter fun s => s.season == g.season && s.teamID == g.wTeamID).length = 1 ∧
      (seeds.filter fun s => s.season == g.season && s.teamID == g.lTeamID).length = 1) :
    (attachSeeds seeds tgames).map splitSeedRow = tgames.map (mrowOf seeds) := by
  rw [attachSeeds_eq_map seeds tgames hseed, List.map_map]
  rfl

/-- The sorted main-draw rows of the resolver (the `main_tourney` frame after
its `sort_values(by=['WTeamID','DayNum'])`). -/
def mainSortOf (seeds : List SeedRec) (games : List GameRow) : List MRow :=
  List.insertionSort teamDayLe
    (((attachSeeds seeds (games.filter fun g => g.ncaaTournament == true)).map
      splitSeedRow).filter fun m => !(isFirstFour m))

set_option maxHeartbeats 2000000 in
/-- Main-draw case of the round-assignment claim: the row at position j of the
sorted main draw gets round cumcount+1, which equals the winning team's count
of non-play-in tournament wins with day number at most this game's. -/
lemma bracket_round_main_case (seeds : List SeedRec) (games : List GameRow)
    (hseed' : ∀ g ∈ games.filter (fun g => g.ncaaTournament == true),
      (seeds.filter fun s => s.season == g.season && s.teamID == g.wTeamID).length = 1 ∧
      (seeds.filter fun s => s.season == g.season && s.teamID == g.lTeamID).length = 1)
    (hwf : ∀ s ∈ seeds, WfSeed s.seed)
    (hday : games.Pairwise fun g1 g2 => g1.ncaaTournament = true →
      g2.ncaaTournament = true → g1.wTeamID = g2.wTeamID → g1.dayNum ≠ g2.dayNum)
    (j : Nat) (hjlen : j < (mainSortOf seeds games).length) :
    ∃ wp lp,
      (slotRowOf ((mainSortOf seeds games).get ⟨j, hjlen⟩,
        (((mainSortOf seeds games).take j).filter fun m2 =>
          m2.game.wTeamID ==
            ((mainSortOf seeds games).get ⟨j, hjlen⟩).game.wTeamID).length + 1)).wSeedPortion
        = some wp ∧
      (slotRowOf ((mainSortOf seeds games).get ⟨j, hjlen⟩,
        (((mainSortOf seeds games).take j).filter fun m2 =>
          m2.game.wTeamID ==
            ((mainSortOf seeds games).get ⟨j, hjlen⟩).game.wTeamID).length + 1)).lSeedPortion
        = some lp ∧
      ((slotRowOf ((mainSortOf seeds games).get ⟨j, hjlen⟩,
        (((mainSortOf seeds games).take j).filter fun m2 =>
          m2.game.wTeamID ==
            ((mainSortOf seeds games).get ⟨j, hjlen⟩).game.wTeamID).length + 1)).round
          = some 0 ↔ hasPlayinSuffix wp ∧ hasPlayinSuffix lp) ∧
      (¬(hasPlayinSuffix wp ∧ hasPlayinSuffix lp) →
        (slotRowOf ((mainSortOf seeds games).get ⟨j, hjlen⟩,
          (((mainSortOf seeds games).take j).filter fun m2 =>
            m2.game.wTeamID ==
              ((mainSortOf seeds games).get ⟨j, hjlen⟩).game.wTeamID).length + 1)).round
          = some (mainWinCount seeds games
              (slotRowOf ((mainSortOf seeds games).get ⟨j, hjlen⟩,
                (((mainSortOf seeds games).take j).filter fun m2 =>
                  m2.game.wTeamID ==
                    ((mainSortOf seeds games).get ⟨j, hjlen⟩).game.wTeamID).length +
                  1)).game)) := by
  have hmerged := merged_eq_map_mrowOf seeds
    (games.filter fun g => g.ncaaTournament == true) hseed'
  set mainS := mainSortOf seeds games with hmainS
  set m := mainS.get ⟨j, hjlen⟩ with hm
  -- membership facts for the j-th row
  have hmmem : m ∈ mainS := List.get_mem _ _ _
  have hmmain : m ∈ ((attachSeeds seeds
      (games.filter fun g => g.ncaaTournament == true)).map splitSeedRow).filter
      fun x => !(isFirstFour x) :=
    (List.perm_insertionSort teamDayLe _).mem_iff.mp hmmem
  have hmmerged : m ∈ (attachSeeds seeds
      (games.filter fun g => g.ncaaTournament == true)).map splitSeedRow :=
    (List.mem_filter.mp hmmain).1
  have hmnotff : isFirstFour m = false := by
    have := (List.mem_filter.mp hmmain).2
    simpa using this
  have hmmerged' := hmmerged
  rw [hmerged] at hmmerged'
  obtain ⟨g0, hg0, hmg0⟩ := List.mem_map.mp hmmerged'
  have hg0flag : g0.ncaaTournament = true := by
    simpa using (List.mem_filter.mp hg0).2
  have hg0games : g0 ∈ games := (List.mem_filter.mp hg0).1
  have hmgame : m.game = g0 := by rw [← hmg0]; rfl
  -- well-formed portions, hence no play-in suffix on a main-draw row
  have hwfW : WfPortion m.wSeedPortion := by
    rw [← hmg0]
    exact seedFor_portion_wf seeds hwf g0.season g0.wTeamID (hseed' g0 hg0).1
  have hwfL : WfPortion m.lSeedPortion := by
    rw [← hmg0]
    exact seedFor_portion_wf seeds hwf g0.season g0.lTeamID (hseed' g0 hg0).2
  have hnsuf : ¬(hasPlayinSuffix m.wSeedPortion ∧ hasPlayinSuffix m.lSeedPortion) := by
    rintro ⟨hsw, hsl⟩
    have hcw := (containsAB_iff_suffix hwfW).mpr hsw
    have hcl := (containsAB_iff_suffix hwfL).mpr hsl
    rw [show isFirstFour m = (containsAB m.wSeedPortion && containsAB m.lSeedPortion)
      from rfl, hcw, hcl] at hmnotff
    cases hmnotff
  -- the cumulative count equals the claim's running count
  have hsorted : mainS.Pairwise teamDayLe := List.sorted_insertionSort teamDayLe _
  have hdist : mainS.Pairwise fun a b =>
      a.game.wTeamID = b.game.wTeamID → a.game.dayNum ≠ b.game.dayNum := by
    have hd0 : (games.filter fun g => g.ncaaTournament == true).Pairwise
        (fun g1 g2 => g1.ncaaTournament = true → g2.ncaaTournament = true →
          g1.wTeamID = g2.wTeamID → g1.dayNum ≠ g2.dayNum) :=
      hday.filter _
    have hd1 : (games.filter fun g => g.ncaaTournament == true).Pairwise
        (fun g1 g2 => g1.wTeamID = g2.wTeamID → g1.dayNum ≠ g2.dayNum) := by
      refine hd0.imp_of_mem ?_
      intro a b ha hb hr
      exact hr (by simpa using (List.mem_filter.mp ha).2)
        (by simpa using (List.mem_filter.mp hb).2)
    have hd2 : ((games.filter fun g => g.ncaaTournament == true).map
        (mrowOf seeds)).Pairwise (fun a b =>
          a.game.wTeamID = b.game.wTeamID → a.game.dayNum ≠ b.game.dayNum) :=
      hd1.map _ fun a b h => h
    rw [← hmerged] at hd2
    have hd3 := hd2.filter fun x => !(isFirstFour x)
    exact ((List.perm_insertionSort teamDayLe _).pairwise_iff
      (fun h heq => (h heq.symm).symm)).mpr hd3
  have hcnt := take_filter_count_of_sorted mainS hsorted hdist j hjlen
  -- transfer the strict-day count from the sorted main draw to the raw table
  have e1 : mainS.countP (fun m2 => m2.game.wTeamID == m.game.wTeamID &&
      decide (m2.game.dayNum < m.game.dayNum)) =
      (((attachSeeds seeds (games.filter fun g => g.ncaaTournament == true)).map
        splitSeedRow).filter fun x => !(isFirstFour x)).countP
        (fun m2 => m2.game.wTeamID == m.game.wTeamID &&
          decide (m2.game.dayNum < m.game.dayNum)) :=
    (List.perm_insertionSort teamDayLe _).countP_eq _
  have e2 : (((attachSeeds seeds (games.filter fun g => g.ncaaTournament == true)).map
      splitSeedRow).filter fun x => !(isFirstFour x)).countP
        (fun m2 => m2.game.wTeamID == m.game.wTeamID &&
          decide (m2.game.dayNum < m.game.dayNum)) =
      ((attachSeeds seeds (games.filter fun g => g.ncaaTournament == true)).map
        splitSeedRow).countP (fun m2 => (m2.game.wTeamID == m.game.wTeamID &&
          decide (m2.game.dayNum < m.game.dayNum)) && !(isFirstFour m2)) :=
    List.countP_filter _ _ _
  have e3 : ((attachSeeds seeds (games.filter fun g => g.ncaaTournament == true)).map
      splitSeedRow).countP (fun m2 => (m2.game.wTeamID == m.game.wTeamID &&
        decide (m2.game.dayNum < m.game.dayNum)) && !(isFirstFour m2)) =
      (games.filter fun g => g.ncaaTournament == true).countP
        (fun g2 => (g2.wTeamID == m.game.wTeamID &&
          decide (g2.dayNum < m.game.dayNum)) && !(gameIsPlayin seeds g2)) := by
    rw [hmerged]
    exact List.countP_map _ _ _
  have e4 : (games.filter fun g => g.ncaaTournament == true).countP
      (fun g2 => (g2.wTeamID == m.game.wTeamID &&
        decide (g2.dayNum < m.game.dayNum)) && !(gameIsPlayin seeds g2)) =
      games.countP (fun g2 => ((g2.wTeamID == m.game.wTeamID &&
        decide (g2.dayNum < m.game.dayNum)) && !(gameIsPlayin seeds g2)) &&
        (g2.ncaaTournament == true)) :=
    List.countP_filter _ _ _
  have e5 : games.countP (fun g2 => ((g2.wTeamID == m.game.wTeamID &&
      decide (g2.dayNum < m.game.dayNum)) && !(gameIsPlayin seeds g2)) &&
      (g2.ncaaTournament == true)) =
      games.countP (fun g2 => ((g2.ncaaTournament == true) &&
        !(gameIsPlayin seeds g2) && (g2.wTeamID == m.game.wTeamID)) &&
        decide (g2.dayNum < m.game.dayNum)) := by
    apply List.countP_congr
    intro g2 _
    constructor
    · intro h
      simp only [Bool.and_eq_true] at h ⊢
      tauto
    · intro h
      simp only [Bool.and_eq_true] at h ⊢
      tauto
  -- the day-equal slice contains exactly this game
  have hone : games.countP (fun g2 => ((g2.ncaaTournament == true) &&
      !(gameIsPlayin seeds g2) && (g2.wTeamID == m.game.wTeamID)) &&
      decide (g2.dayNum = m.game.dayNum)) = 1 := by
    have hle : games.countP (fun g2 => ((g2.ncaaTournament == true) &&
        !(gameIsPlayin seeds g2) && (g2.wTeamID == m.game.wTeamID)) &&
        decide (g2.dayNum = m.game.dayNum)) ≤ 1 := by
      apply countP_le_one_of_pairwise
      refine hday.imp ?_
      intro a b hr ⟨hpa, hpb⟩
      simp only [Bool.and_eq_true, beq_iff_eq, decide_eq_true_eq] at hpa hpb
      exact hr hpa.1.1.1 hpb.1.1.1 (hpa.1.2.trans hpb.1.2.symm)
        (by rw [hpa.2, hpb.2])
    have hpos : 0 < games.countP (fun g2 => ((g2.ncaaTournament == true) &&
        !(gameIsPlayin seeds g2) && (g2.wTeamID == m.game.wTeamID)) &&
        decide (g2.dayNum = m.game.dayNum)) := by
      apply List.countP_pos_iff.mpr
      refine ⟨g0, hg0games, ?_⟩
      have hplayin : gameIsPlayin seeds g0 = false := by
        rw [show gameIsPlayin seeds g0 = isFirstFour (mrowOf seeds g0) from rfl, hmg0]
        exact hmnotff
      simp only [Bool.and_eq_true, beq_iff_eq, decide_eq_true_eq]
      rw [hmgame]
      simp [hg0flag, hplayin]
    omega
  have hsplit := countP_day_split
    (fun g2 => (g2.ncaaTournament == true) && !(gameIsPlayin seeds g2) &&
      (g2.wTeamID == m.game.wTeamID)) (fun g2 => g2.dayNum) m.game.dayNum games
  have hmwc : mainWinCount seeds games m.game =
      games.countP (fun g2 => ((g2.ncaaTournament == true) &&
        !(gameIsPlayin seeds g2) && (g2.wTeamID == m.game.wTeamID)) &&
        decide (g2.dayNum ≤ m.game.dayNum)) := by
    unfold mainWinCount
    rw [← List.countP_eq_length_filter]
  refine ⟨m.wSeedPortion, m.lSeedPortion, rfl, rfl, ?_, ?_⟩
  · constructor
    · intro h
      have := Option.some.inj h
      omega
    · intro hc
      exact absurd hc hnsuf
  · intro _
    show some _ = some _
    congr 1
    show (((mainS.take j).filter fun m2 =>
      m2.game.wTeamID == m.game.wTeamID).length + 1) = mainWinCount seeds games m.game
    rw [hcnt, hmwc, hsplit, hone, e1, e2, e3, e4, e5]

/-- C6: bracket round assignment.  Under the data-model invariants (exactly
one seed record per tournament team and season, well-formed seed strings, and
no team winning two tournament games on one day number), every
tournament-flagged output row of the resolver carries round 0 exactly when
both teams' seed portions carry the play-in suffix, and every other tournament
row's round is the winning team's running count, in ascending day order, of
non-play-in tournament wins up to and including that game. -/
theorem bracket_round_assignment (seeds : List SeedRec) (games : List GameRow)
    (hseed : ∀ g ∈ games, g.ncaaTournament = true →
      (seeds.filter fun s => s.season == g.season && s.teamID == g.wTeamID).length = 1 ∧
      (seeds.filter fun s => s.season == g.season && s.teamID == g.lTeamID).length = 1)
    (hwf : ∀ s ∈ seeds, WfSeed s.seed)
    (hday : games.Pairwise fun g1 g2 => g1.ncaaTournament = true →
      g2.ncaaTournament = true → g1.wTeamID = g2.wTeamID → g1.dayNum ≠ g2.dayNum) :
    ∀ row ∈ tournament_slot_transform seeds games, row.game.ncaaTournament = true →
      ∃ wp lp, row.wSeedPortion = some wp ∧ row.lSeedPortion = some lp ∧
        (row.round = some 0 ↔ hasPlayinSuffix wp ∧ hasPlayinSuffix lp) ∧
        (¬(hasPlayinSuffix wp ∧ hasPlayinSuffix lp) →
          row.round = some (mainWinCount seeds games row.game)) := by
  intro row hrow hflag
  have hseed' : ∀ g ∈ games.filter (fun g => g.ncaaTournament == true),
      (seeds.filter fun s => s.season == g.season && s.teamID == g.wTeamID).length = 1 ∧
      (seeds.filter fun s => s.season == g.season && s.teamID == g.lTeamID).length = 1 := by
    intro g hg
    exact hseed g (List.mem_filter.mp hg).1 (by simpa using (List.mem_filter.mp hg).2)
  have hmerged := merged_eq_map_mrowOf seeds
    (games.filter fun g => g.ncaaTournament == true) hseed'
  have hshape : tournament_slot_transform seeds games =
      ((games.filter fun g => g.ncaaTournament == false).map fun g =>
        (⟨g, none, none, none, none⟩ : SlotRow)) ++
      (List.insertionSort dayLe
        ((((attachSeeds seeds (games.filter fun g => g.ncaaTournament == true)).map
            splitSeedRow).filter (fun m => isFirstFour m)).map (fun m => (m, 0)) ++
          mainRoundRows ((attachSeeds seeds
            (games.filter fun g => g.ncaaTournament == true)).map splitSeedRow))).map
        slotRowOf := rfl
  rw [hshape] at hrow
  rcases List.mem_append.mp hrow with hreg | htr
  · obtain ⟨g, hg, hre⟩ := List.mem_map.mp hreg
    have hgf := (List.mem_filter.mp hg).2
    rw [← hre] at hflag
    simp only [beq_iff_eq] at hgf
    rw [hgf] at hflag
    cases hflag
  · obtain ⟨p, hp, hpe⟩ := List.mem_map.mp htr
    have hp' := (List.perm_insertionSort dayLe _).mem_iff.mp hp
    rcases List.mem_append.mp hp' with hff | hmain
    · -- First Four row: round 0, both portions carry the suffix
      obtain ⟨m, hmf, hpm⟩ := List.mem_map.mp hff
      have hmm : m ∈ (attachSeeds seeds
          (games.filter fun g => g.ncaaTournament == true)).map splitSeedRow :=
        (List.mem_filter.mp hmf).1
      have hmff : isFirstFour m = true := (List.mem_filter.mp hmf).2
      rw [hmerged] at hmm
      obtain ⟨g0, hg0, hmg0⟩ := List.mem_map.mp hmm
      have hwfW : WfPortion m.wSeedPortion := by
        rw [← hmg0]
        exact seedFor_portion_wf seeds hwf g0.season g0.wTeamID (hseed' g0 hg0).1
      have hwfL : WfPortion m.lSeedPortion := by
        rw [← hmg0]
        exact seedFor_portion_wf seeds hwf g0.season g0.lTeamID (hseed' g0 hg0).2
      rw [show isFirstFour m = (containsAB m.wSeedPortion && containsAB m.lSeedPortion)
        from rfl, Bool.and_eq_true] at hmff
      obtain ⟨hcw, hcl⟩ := hmff
      have hsw := (containsAB_iff_suffix hwfW).mp hcw
      have hsl := (containsAB_iff_suffix hwfL).mp hcl
      rw [← hpe, ← hpm]
      exact ⟨m.wSeedPortion, m.lSeedPortion, rfl, rfl,
        ⟨fun _ => ⟨hsw, hsl⟩, fun _ => rfl⟩,
        fun hc => absurd ⟨hsw, hsl⟩ hc⟩
    · -- Main-draw row: positive round equal to the running win count
      obtain ⟨j, hj, hpj⟩ := List.getElem_of_mem hmain
      have hjlen : j < (mainSortOf seeds games).length := by
        have hl : (mainRoundRows ((attachSeeds seeds
            (games.filter fun g => g.ncaaTournament == true)).map splitSeedRow)).length =
            (mainSortOf seeds games).length := by
          unfold mainRoundRows mainSortOf
          rw [List.length_map, List.enum_length]
        rw [← hl]
        exact hj
      have hpj' : p = ((mainSortOf seeds games).get ⟨j, hjlen⟩,
          (((mainSortOf seeds games).take j).filter
            fun m2 => m2.game.wTeamID ==
              ((mainSortOf seeds games).get ⟨j, hjlen⟩).game.wTeamID).length + 1) := by
        rw [← hpj]
        show (mainRoundRows _)[j] = _
        unfold mainRoundRows
        rw [List.getElem_map, List.getElem_enum]
        rfl
      rw [← hpe, hpj']
      exact bracket_round_main_case seeds games hseed' hwf hday j hjlen

/-- Concrete seed table: teams 1 and 2 seeded W01 and W02 in season 2024. -/
def seedsEx : List SeedRec :=
  [⟨2024, 1, ['W', '0', '1']⟩, ⟨2024, 2, ['W', '0', '2']⟩]

/-- Concrete tournament game: team 1 beats team 2 on day 136. -/
def gTour : GameRow := ⟨2024, 136, 1, 2, zeroLine, zeroLine, true⟩

/-- Concrete game table holding only the tournament game. -/
def gamesEx : List GameRow := [gTour]

/-- Witness for C6 at a concrete input: the single non-play-in tournament game
receives round 1, the winner's first tournament win. -/
theorem bracket_round_assignment_witness :
    ∃ row ∈ tournament_slot_transform seedsEx gamesEx,
      row.game.ncaaTournament = true ∧
      ∃ wp lp, row.wSeedPortion = some wp ∧ row.lSeedPortion = some lp ∧
        (row.round = some 0 ↔ hasPlayinSuffix wp ∧ hasPlayinSuffix lp) ∧
        (¬(hasPlayinSuffix wp ∧ hasPlayinSuffix lp) →
          row.round = some (mainWinCount seedsEx gamesEx row.game)) := by
  refine ⟨⟨gTour, some ['0', '1'], some ['0', '2'], some 1, some ['W']⟩,
    by decide, by decide, ?_⟩
  have hwfpf : ∀ s ∈ seedsEx, WfSeed s.seed := by
    intro s hs
    rcases List.mem_cons.mp hs with rfl | hs'
    · exact ⟨'W', ['0', '1'], rfl, Or.inl (by decide)⟩
    · rcases List.mem_cons.mp hs' with rfl | hs''
      · exact ⟨'W', ['0', '2'], rfl, Or.inl (by decide)⟩
      · cases hs''
  exact bracket_round_assignment seedsEx gamesEx (by decide) hwfpf (by decide)
    ⟨gTour, some ['0', '1'], some ['0', '2'], some 1, some ['W']⟩ (by decide) (by decide)

/-- The named raw tables the feature pipeline's first stage reads from its
input mapping; a missing name raises KeyError in the source. -/
structure RawMapping where
  combinedDetailed : Option (List GameRow)
  masseyOrdinals : Option (List RankRow)
  ncaaTourneySeeds : Option (List SeedRec)
  ncaaTourneySlots : Option Unit
deriving Repr

/-- First pipeline stage, `TournamentSlotTransformer.transform`: reads
`NCAATourneySeeds`, `CombinedDetailedResults` and `NCAATourneySlots` (the
slots table is looked up on line 172 but never used) and produces the slot
table; a missing key is a KeyError. -/
def TournamentSlotStage (X : RawMapping) : Except String (List SlotRow) :=
  match X.ncaaTourneySeeds, X.combinedDetailed, X.ncaaTourneySlots with
  | some seeds, some games, some _ => Except.ok (tournament_slot_transform seeds games)
  | _, _, _ => Except.error "KeyError"

/-- Second pipeline stage, `RankingTransformer.transform`: the stage receives
the single table produced by the slot stage yet indexes it with the
`MasseyOrdinals` and games-table names as if it were the raw mapping, and its
call `merge_with_latest_ranking(games_df, rankings_processed, 'WTeamID',
'WTeamRank')` passes four arguments to the three-parameter
`helpers.merge_with_latest_ranking`.  Every invocation therefore raises
(KeyError or TypeError) before producing a table, which the embedding records
as an error value. -/
def RankingStage (X : List SlotRow) : Except String (List SlotRow) :=
  Except.error
    "TypeError: merge_with_latest_ranking takes 3 positional arguments but 4 were given"

/-- Shallow embedding of `pipelines.feature_pipeline.transform`: the slot
stage followed by the rankings stage.  The rolling-stats and randomization
stages (the latter consuming the random seed) would follow, but no value ever
reaches them because the rankings stage raises on every input. -/
def feature_pipeline (seed : Nat) (X : RawMapping) : Except String (List SlotRow) :=
  (TournamentSlotStage X).bind RankingStage

/-- C7: for every input mapping and every seed, an invocation of the full
feature pipeline raises before producing any output table (the rankings stage
calls `merge_with_latest_ranking` with four arguments when the helper takes
three), so no two invocations ever produce output tables, identical or not. -/
theorem feature_pipeline_never_produces_output (seed : Nat) (X : RawMapping) :
    ∃ e, feature_pipeline seed X = Except.error e := by
  rcases hs : X.ncaaTourneySeeds with _ | seeds <;>
    rcases hg : X.combinedDetailed with _ | games <;>
    rcases ht : X.ncaaTourneySlots with _ | slots <;>
    simp [feature_pipeline, TournamentSlotStage, RankingStage, hs, hg, ht, Except.bind]

end MarchMadness
